import Mathlib

/-!
# Universal Logic Gate firmware: gate engine and configuration state machine

Shallow embedding of `Universal Logic Gate.cpp` (BreadboarD GeniuS programmable
logic gate, firmware v1.0.0).  C++ `bool` is `Bool`, `uint8_t` is `Nat` with an
explicit `% 256` wherever a value is stored into an 8-bit variable, and the
globals of the sketch are the fields of `State`.

The bit-banged I2C driver works on a `Bus` (the two protocol pins, `g_oledAddr`
and a log of line operations), the level read from the data line being an
input.  The display framebuffer `oledFB` is a `Framebuffer`; the line loops,
whose 8-bit counter may never pass its endpoint, take a bound `fuel` on their
loop tests and return `none` when it runs out.

The shipping preset `AND-NAND.cpp` is embedded under the prefix `AndNand`.
-/

namespace LogicGates

/-! ## Constants -/

/-- Enumerator `GF_ANDNAND` of `enum GateFamily : uint8_t`. -/
def GF_ANDNAND : Nat := 0
/-- Enumerator `GF_ORNOR`. -/
def GF_ORNOR : Nat := 1
/-- Enumerator `GF_XORXNOR`. -/
def GF_XORXNOR : Nat := 2
/-- Enumerator `GF_MAJMIN`. -/
def GF_MAJMIN : Nat := 3
/-- Enumerator `GF_DUALNOT`. -/
def GF_DUALNOT : Nat := 4
/-- Enumerator `GF__COUNT`, the number of gate families. -/
def GF__COUNT : Nat := 5

/-- The line `#define FACTORY_DEFAULT_GATE GF_ORNOR`. -/
def FACTORY_DEFAULT_GATE : Nat := GF_ORNOR

/-- The line `#define EE_GATE_FAMILY 0`: EEPROM address of the saved family. -/
def EE_GATE_FAMILY : Nat := 0

/-! ## Input sampling -/

/-- Three successive `readPinLogical` results of one pin, in reading order. -/
structure Samples where
  s1 : Bool
  s2 : Bool
  s3 : Bool
deriving DecidableEq, Repr

/-- Function `readStable`: `uint8_t s = 0; s += read; s += read; s += read;
return s >= 2`.  Each `+=` stores into a `uint8_t`. -/
def readStable (p : Samples) : Bool :=
  let s0 : Nat := 0
  let s1 := (s0 + p.s1.toNat) % 256
  let s2 := (s1 + p.s2.toNat) % 256
  let s3 := (s2 + p.s3.toNat) % 256
  decide (s3 ≥ 2)

/-- Function `rowOR_arr`: walks the pins of a row in order and returns `true`
at the first pin whose `readStable` is true, `false` when none is. -/
def rowOR_arr : List Samples → Bool
  | [] => false
  | p :: rest => if readStable p then true else rowOR_arr rest

/-! ## Logic helpers for 4-input mode

`a & b & c & d` and friends are integer operations on the promoted `bool`
operands; the `int` result is converted back to `bool` (non-zero is true). -/

/-- Function `evalY_AND`: `return a & b & c & d;`. -/
def evalY_AND (a b c d : Bool) : Bool :=
  (a.toNat &&& b.toNat &&& c.toNat &&& d.toNat) != 0

/-- Function `evalY_OR`: `return a | b | c | d;`. -/
def evalY_OR (a b c d : Bool) : Bool :=
  (a.toNat ||| b.toNat ||| c.toNat ||| d.toNat) != 0

/-- Function `evalY_XOR`: `return (a ^ b ^ c ^ d);`. -/
def evalY_XOR (a b c d : Bool) : Bool :=
  (a.toNat ^^^ b.toNat ^^^ c.toNat ^^^ d.toNat) != 0

/-- Function `evalY_MAJ`: `uint8_t s=a+b+c+d; return s >= 3;`. -/
def evalY_MAJ (a b c d : Bool) : Bool :=
  let s := (a.toNat + b.toNat + c.toNat + d.toNat) % 256
  decide (s ≥ 3)

/-- The "Evaluate logic" block of `loop()`: `bool Y=false, Yb=false;` followed
by the two `switch (g_gateFamily)` trees, one per topology.  Neither `switch`
has a `default`, so an out-of-range family leaves both outputs `false`.
The result is `(Y, Yb)`. -/
def evalLogic (g_hasOLED : Bool) (g_gateFamily : Nat) (in1 in2 in3 in4 : Bool) :
    Bool × Bool :=
  if g_hasOLED then
    -- 3-input: rows 1..3 only
    let a := in1; let b := in2; let c := in3
    match g_gateFamily with
    | 0 => let Y := (a.toNat &&& b.toNat &&& c.toNat) != 0; (Y, !Y)
    | 1 => let Y := (a.toNat ||| b.toNat ||| c.toNat) != 0; (Y, !Y)
    | 2 => let Y := (a.toNat ^^^ b.toNat ^^^ c.toNat) != 0; (Y, !Y)
    | 3 => let Y := decide (a.toNat + b.toNat + c.toNat ≥ 2); (Y, !Y)
    | 4 => (!b, !c)
    | _ => (false, false)
  else
    -- 4-input: rows 1..4
    let a := in1; let b := in2; let c := in3; let d := in4
    match g_gateFamily with
    | 0 => let Y := evalY_AND a b c d; (Y, !Y)
    | 1 => let Y := evalY_OR a b c d; (Y, !Y)
    | 2 => let Y := evalY_XOR a b c d; (Y, !Y)
    | 3 => let Y := evalY_MAJ a b c d; (Y, !Y)
    | 4 => (!b, !c)
    | _ => (false, false)

/-! ## EEPROM and settings -/

/-- The on-chip EEPROM as the firmware sees it: one byte per address, and a
count of the physical cell writes performed so far (the wear the firmware
wants to bound). -/
structure Eeprom where
  cells : Nat → Nat
  writes : Nat

/-- Library call `EEPROM.read(addr)`: the byte stored at `addr`. -/
def Eeprom.read (e : Eeprom) (addr : Nat) : Nat :=
  e.cells addr % 256

/-- Library call `EEPROM.write(addr, val)`: one physical cell write. -/
def Eeprom.write (e : Eeprom) (addr val : Nat) : Eeprom :=
  { cells := fun a => if a = addr then val % 256 else e.cells a
    writes := e.writes + 1 }

/-- Modelled from the spec: the Arduino library call `EEPROM.update(addr, val)`,
whose body is not part of the sketch.  The spec says to treat "update" as
compare-then-write: the cell is written only when the stored byte differs from
the new value. -/
def Eeprom.update (e : Eeprom) (addr val : Nat) : Eeprom :=
  if e.read addr != val % 256 then e.write addr val else e

/-- The globals of the sketch that the gate engine and the configuration state
machine use: `g_hasOLED`, `g_gateFamily`, the function-local `static bool
lastBtn` of `loop()`, and the EEPROM device. -/
structure State where
  g_hasOLED : Bool
  g_gateFamily : Nat
  lastBtn : Bool
  eeprom : Eeprom

/-- The static initialisers: `g_hasOLED = false`,
`g_gateFamily = FACTORY_DEFAULT_GATE`, `lastBtn = false`. -/
def State.init (e : Eeprom) : State :=
  { g_hasOLED := false, g_gateFamily := FACTORY_DEFAULT_GATE, lastBtn := false, eeprom := e }

/-- Function `loadSettings`: `uint8_t v = EEPROM.read(EE_GATE_FAMILY);
if (v >= GF__COUNT) v = FACTORY_DEFAULT_GATE; g_gateFamily = v;`. -/
def loadSettings (s : State) : State :=
  let v := s.eeprom.read EE_GATE_FAMILY
  let v := if v ≥ GF__COUNT then FACTORY_DEFAULT_GATE else v
  { s with g_gateFamily := v }

/-- Function `saveSettings`: `EEPROM.update(EE_GATE_FAMILY, g_gateFamily);`. -/
def saveSettings (s : State) : State :=
  { s with eeprom := s.eeprom.update EE_GATE_FAMILY s.g_gateFamily }

/-- The part of `setup()` that touches the modelled globals: `loadSettings();`
then `g_hasOLED = probeOLED();`, the probe result being given. -/
def setup (e : Eeprom) (probeResult : Bool) : State :=
  let s := loadSettings (State.init e)
  { s with g_hasOLED := probeResult }

/-! ## Main loop -/

/-- The pin samples one pass of `loop()` may take: the pins of the four rows
(3, 2, 2 and 3 pins) and the separate `readStable(IN_4A)` of the mode button. -/
structure CycleInput where
  row1 : List Samples
  row2 : List Samples
  row3 : List Samples
  row4 : List Samples
  btn : Samples

/-- What one pass of `loop()` computes: the four row values and `(Y, Yb)`,
which are driven onto the output buses. -/
structure Outputs where
  in1 : Bool
  in2 : Bool
  in3 : Bool
  in4 : Bool
  Y : Bool
  Yb : Bool
deriving DecidableEq, Repr

/-- The "Mode button" block of `loop()`:
`if (g_hasOLED) { bool btn = readStable(IN_4A); if (btn && !lastBtn) {
g_gateFamily = (g_gateFamily + 1) % GF__COUNT; saveSettings(); } lastBtn = btn; }`. -/
def modeButton (s : State) (btnSamples : Samples) : State :=
  if s.g_hasOLED then
    let btn := readStable btnSamples
    let s1 :=
      if btn && !s.lastBtn then
        saveSettings { s with g_gateFamily := ((s.g_gateFamily + 1) % GF__COUNT) % 256 }
      else s
    { s1 with lastBtn := btn }
  else s

/-- One pass of `loop()` up to the point where the output buses are driven:
row aggregation (row 4 only without a display), the mode button, and the logic
evaluation with the family as it stands after the button block. -/
def loop (s : State) (inp : CycleInput) : State × Outputs :=
  let in1 := rowOR_arr inp.row1
  let in2 := rowOR_arr inp.row2
  let in3 := rowOR_arr inp.row3
  let in4 := if !s.g_hasOLED then rowOR_arr inp.row4 else false
  let s1 := modeButton s inp.btn
  let r := evalLogic s1.g_hasOLED s1.g_gateFamily in1 in2 in3 in4
  (s1, { in1 := in1, in2 := in2, in3 := in3, in4 := in4, Y := r.1, Yb := r.2 })

/-- Successive passes of `loop()`, one per element of `inputs`; the state after
the last one. -/
def runLoop (s : State) : List CycleInput → State
  | [] => s
  | inp :: rest => runLoop (loop s inp).1 rest

/-! ## Specification vocabulary -/

/-- Number of `true` values among the rows in scope. -/
def countTrue (rows : List Bool) : Nat :=
  (rows.filter id).length

/-- Number of rising edges (a `true` sample whose predecessor is `false`) in a
sequence of debounced button samples, `last` being the sample before the first. -/
def risingEdges (last : Bool) : List Bool → Nat
  | [] => 0
  | b :: rest => (if b && !last then 1 else 0) + risingEdges b rest

/-- The debounced button value of each cycle of a run. -/
def buttonTrace (inputs : List CycleInput) : List Bool :=
  inputs.map fun inp => readStable inp.btn

/-- An EEPROM as it leaves the factory: every cell reads `0xFF`, nothing has
been written yet. -/
def erasedEeprom : Eeprom :=
  { cells := fun _ => 0xFF, writes := 0 }

/-- An EEPROM whose cell `EE_GATE_FAMILY` holds the byte `v`, the others erased. -/
def eepromHolding (v : Nat) : Eeprom :=
  { cells := fun a => if a = EE_GATE_FAMILY then v else 0xFF, writes := 0 }

/-- A pin that reads the same level `b` at all three samples. -/
def steady (b : Bool) : Samples :=
  { s1 := b, s2 := b, s3 := b }

/-- A cycle in which every row pin is low and the button pin reads `b` steadily. -/
def buttonCycle (b : Bool) : CycleInput :=
  { row1 := [steady false, steady false, steady false]
    row2 := [steady false, steady false]
    row3 := [steady false, steady false]
    row4 := [steady b, steady false, steady false]
    btn := steady b }

/-- A run of `n` button presses: each press is one cycle with the button high
followed by one cycle with the button low. -/
def presses : Nat → List CycleInput
  | 0 => []
  | n + 1 => buttonCycle true :: buttonCycle false :: presses n

/-- A session with a display, the family `f` active and saved, button released. -/
def displaySession (f : Nat) : State :=
  { g_hasOLED := true, g_gateFamily := f, lastBtn := false, eeprom := eepromHolding f }

/-! ## Bit-banged I2C on the row-4 pins -/

/-- Arduino pin modes used on `SDA_PIN` and `SCL_PIN`. -/
inductive PinMode where
  | INPUT
  | INPUT_PULLUP
  | OUTPUT
deriving DecidableEq, Repr

/-- One call of a line helper, in the order the firmware makes them:
`sdaHigh()`, `sdaLow()`, `sclHigh()`, `sclLow()`, `readSDA()` with the level it
returned, and the two bare `pinMode(.., INPUT)` calls of `probeOLED`. -/
inductive BusOp where
  | sdaHigh
  | sdaLow
  | sclHigh
  | sclLow
  | readSDA (level : Bool)
  | sdaInput
  | sclInput
deriving DecidableEq, Repr

/-- The two protocol pins and the globals of the I2C driver: pin modes, output
latches, `g_oledAddr`, the number of `readSDA()` calls made so far and the log
of line operations, oldest first. -/
structure Bus where
  sdaMode : PinMode
  sclMode : PinMode
  sdaOut : Bool
  sclOut : Bool
  g_oledAddr : Nat
  reads : Nat
  log : List BusOp
deriving DecidableEq, Repr

/-- The bus at power-up, after `setup()` has made every input pin `INPUT`:
`g_oledAddr = 0x3C`, nothing logged. -/
def Bus.init : Bus :=
  { sdaMode := .INPUT, sclMode := .INPUT, sdaOut := false, sclOut := false,
    g_oledAddr := 0x3C, reads := 0, log := [] }

/-- Function `sdaHigh`: `pinMode(SDA_PIN, INPUT_PULLUP);`. -/
def sdaHigh (s : Bus) : Bus :=
  { s with sdaMode := .INPUT_PULLUP, log := s.log ++ [.sdaHigh] }

/-- Function `sdaLow`: `pinMode(SDA_PIN, OUTPUT); digitalWrite(SDA_PIN, LOW);`. -/
def sdaLow (s : Bus) : Bus :=
  { s with sdaMode := .OUTPUT, sdaOut := false, log := s.log ++ [.sdaLow] }

/-- Function `sclHigh`: `pinMode(SCL_PIN, INPUT_PULLUP);`. -/
def sclHigh (s : Bus) : Bus :=
  { s with sclMode := .INPUT_PULLUP, log := s.log ++ [.sclHigh] }

/-- Function `sclLow`: `pinMode(SCL_PIN, OUTPUT); digitalWrite(SCL_PIN, LOW);`. -/
def sclLow (s : Bus) : Bus :=
  { s with sclMode := .OUTPUT, sclOut := false, log := s.log ++ [.sclLow] }

/-- Function `readSDA`: `return digitalRead(SDA_PIN);`.  The level on the wire
is given by `line`, indexed by the number of reads made before this one. -/
def readSDA (line : Nat → Bool) (s : Bus) : Bool × Bus :=
  (line s.reads, { s with reads := s.reads + 1, log := s.log ++ [.readSDA (line s.reads)] })

/-- Function `i2c_start`: `sdaHigh(); sclHigh(); sdaLow(); sclLow();` (the
`i2c_delay()` calls carry no state). -/
def i2c_start (s : Bus) : Bus :=
  sclLow (sdaLow (sclHigh (sdaHigh s)))

/-- Function `i2c_stop`: `sdaLow(); sclHigh(); sdaHigh();`. -/
def i2c_stop (s : Bus) : Bus :=
  sdaHigh (sclHigh (sdaLow s))

/-- The `for (uint8_t i = 0; i < 8; ++i)` loop of `i2c_write`, with `n`
iterations left: `if (b & 0x80) sdaHigh(); else sdaLow(); sclHigh(); sclLow();
b <<= 1;`. -/
def i2c_write_bits : Nat → Bus → Nat → Bus
  | 0, s, _ => s
  | n + 1, s, b =>
    let s := if (b &&& 0x80) != 0 then sdaHigh s else sdaLow s
    let s := sclHigh s
    let s := sclLow s
    i2c_write_bits n s ((b <<< 1) % 256)

/-- Function `i2c_write`: the eight data bits, then `sdaHigh(); sclHigh();
bool ack = !readSDA(); sclLow(); return ack;`. -/
def i2c_write (line : Nat → Bool) (s : Bus) (b : Nat) : Bool × Bus :=
  let s := i2c_write_bits 8 s b
  let s := sdaHigh s
  let s := sclHigh s
  let r := readSDA line s
  let ack := !r.1
  let s := sclLow r.2
  (ack, s)

/-- The `for (uint8_t i = 0; i < 2; ++i)` loop of `probeOLED` over the
addresses still to try: `i2c_start(); bool ok = i2c_write((addrs[i] << 1) | 0);
i2c_stop(); if (ok) { g_oledAddr = addrs[i]; found = true; break; }`.
The result is `(found, bus)`. -/
def probeOLED_loop (line : Nat → Bool) : List Nat → Bus → Bool × Bus
  | [], s => (false, s)
  | a :: rest, s =>
    let s := i2c_start s
    let r := i2c_write line s (((a <<< 1) ||| 0) % 256)
    let s := i2c_stop r.2
    if r.1 then (true, { s with g_oledAddr := a })
    else probeOLED_loop line rest s

/-- Function `probeOLED`: `sdaHigh(); sclHigh();`, the loop over
`addrs = { 0x3C, 0x3D }`, and `if (!found) { pinMode(SDA_PIN, INPUT);
pinMode(SCL_PIN, INPUT); }`. -/
def probeOLED (line : Nat → Bool) (s : Bus) : Bool × Bus :=
  let s := sdaHigh s
  let s := sclHigh s
  let r := probeOLED_loop line [0x3C, 0x3D] s
  if !r.1 then
    let s : Bus := { r.2 with sdaMode := .INPUT, log := r.2.log ++ [BusOp.sdaInput] }
    let s : Bus := { s with sclMode := .INPUT, log := s.log ++ [BusOp.sclInput] }
    (r.1, s)
  else r

/-- The array `static uint8_t oledFB[1024]`: one byte per index below 1024. -/
abbrev Framebuffer : Type := Fin 1024 → Nat

/-- Function `oled_clear`: `memset(oledFB,0,sizeof(oledFB));`. -/
def oled_clear (_fb : Framebuffer) : Framebuffer :=
  fun _ => 0

/-- Function `oled_pixel`: `if(x>127||y>63) return; uint16_t i=(y>>3)*128 + x;
uint8_t m=1<<(y&7); if(on) oledFB[i]|=m; else oledFB[i]&=~m;`.
`~m` is the complement of the promoted 16-bit `int`, and each store is into a
`uint8_t`.  The index is in bounds because of the guard. -/
def oled_pixel (fb : Framebuffer) (x y : Nat) (isOn : Bool) : Framebuffer :=
  if h : x > 127 ∨ y > 63 then fb
  else
    let i : Fin 1024 := ⟨((y >>> 3) * 128 + x) % 65536, by
      rw [Nat.shiftRight_eq_div_pow]; omega⟩
    let m := (1 <<< (y &&& 7)) % 256
    if isOn then fun j => if j = i then (fb i ||| m) % 256 else fb j
    else fun j => if j = i then (fb i &&& (0xFFFF ^^^ m)) % 256 else fb j

/-- The loop `for(uint8_t x=x0;x<=x1;x++) oled_pixel(x,y,on);` of `oled_hline`,
the counter wrapping modulo 256.  `fuel` bounds the number of loop tests; the
result is `none` when it runs out before the loop exits. -/
def oled_hline_loop : Nat → Framebuffer → Nat → Nat → Nat → Bool → Option Framebuffer
  | 0, _, _, _, _, _ => none
  | fuel + 1, fb, x, x1, y, isOn =>
    if x ≤ x1 then oled_hline_loop fuel (oled_pixel fb x y isOn) ((x + 1) % 256) x1 y isOn
    else some fb

/-- Function `oled_hline`: `if(x1<x0) {uint8_t t=x0;x0=x1;x1=t;}` then the loop. -/
def oled_hline (fuel : Nat) (fb : Framebuffer) (x0 x1 y : Nat) (isOn : Bool) :
    Option Framebuffer :=
  if x1 < x0 then oled_hline_loop fuel fb x1 x0 y isOn
  else oled_hline_loop fuel fb x0 x1 y isOn

/-- The loop `for(uint8_t y=y0;y<=y1;y++) oled_pixel(x,y,on);` of `oled_vline`. -/
def oled_vline_loop : Nat → Framebuffer → Nat → Nat → Nat → Bool → Option Framebuffer
  | 0, _, _, _, _, _ => none
  | fuel + 1, fb, x, y, y1, isOn =>
    if y ≤ y1 then oled_vline_loop fuel (oled_pixel fb x y isOn) x ((y + 1) % 256) y1 isOn
    else some fb

/-- Function `oled_vline`: `if(y1<y0){uint8_t t=y0;y0=y1;y1=t;}` then the loop. -/
def oled_vline (fuel : Nat) (fb : Framebuffer) (x y0 y1 : Nat) (isOn : Bool) :
    Option Framebuffer :=
  if y1 < y0 then oled_vline_loop fuel fb x y1 y0 isOn
  else oled_vline_loop fuel fb x y0 y1 isOn

/-! ## 5x7 font -/

/-- The record `struct G5x7 { char c; uint8_t col[5]; }`. -/
structure G5x7 where
  c : Char
  col : List Nat
deriving DecidableEq, Repr

/-- The table `FONT_5x7`. -/
def FONT_5x7 : List G5x7 :=
  [ ⟨' ', [0, 0, 0, 0, 0]⟩, ⟨'/', [0x02, 0x04, 0x08, 0x10, 0x20]⟩,
    ⟨'0', [0x3E, 0x51, 0x49, 0x45, 0x3E]⟩, ⟨'1', [0x00, 0x42, 0x7F, 0x40, 0x00]⟩,
    ⟨'A', [0x7E, 0x11, 0x11, 0x11, 0x7E]⟩, ⟨'D', [0x7F, 0x41, 0x41, 0x22, 0x1C]⟩,
    ⟨'I', [0x00, 0x41, 0x7F, 0x41, 0x00]⟩, ⟨'J', [0x20, 0x40, 0x41, 0x3F, 0x01]⟩,
    ⟨'M', [0x7F, 0x04, 0x18, 0x04, 0x7F]⟩, ⟨'N', [0x7F, 0x08, 0x10, 0x20, 0x7F]⟩,
    ⟨'O', [0x3E, 0x41, 0x41, 0x41, 0x3E]⟩, ⟨'R', [0x7F, 0x09, 0x19, 0x29, 0x46]⟩,
    ⟨'T', [0x01, 0x01, 0x7F, 0x01, 0x01]⟩, ⟨'X', [0x63, 0x14, 0x08, 0x14, 0x63]⟩,
    ⟨'Y', [0x00, 0x42, 0x7F, 0x40, 0x00]⟩ ]

/-- The table search of `text57_scaled`: `for (i=0;i<N;i++) if (FONT_5x7[i].c==ch)
{ g = FONT_5x7[i].col; break; }`, `none` standing for the null `g`. -/
def findGlyph (ch : Char) : List G5x7 → Option (List Nat)
  | [] => none
  | e :: rest => if e.c = ch then some e.col else findGlyph ch rest

/-- The two innermost loops of `text57_scaled`: `for (dx<k) for (dy<k)
oled_pixel(x + cx*k + dx, y + ry*k + dy, true);`, the `int` coordinates being
converted to the `uint8_t` parameters of `oled_pixel`. -/
def drawBlock (fb : Framebuffer) (x y cx ry k : Nat) : Framebuffer :=
  (List.range k).foldl (fun fb dx =>
    (List.range k).foldl (fun fb dy =>
      oled_pixel fb ((x + cx * k + dx) % 256) ((y + ry * k + dy) % 256) true) fb) fb

/-- The glyph loops of `text57_scaled`: `for (cx<5) { col = g[cx]; for (ry<7)
if (col & (1<<ry)) ...block... }`. -/
def drawGlyph (fb : Framebuffer) (x y : Nat) (g : List Nat) (k : Nat) : Framebuffer :=
  (List.range 5).foldl (fun fb cx =>
    let col := g.getD cx 0
    (List.range 7).foldl (fun fb ry =>
      if (col &&& (1 <<< ry)) != 0 then drawBlock fb x y cx ry k else fb) fb) fb

/-- The character loop of `text57_scaled` over the characters before the
terminating NUL; the result is the framebuffer and the final cursor `x`.
An unknown character takes `if (!g){ x += 6*k; continue; }`, a mapped one is
drawn and followed by `x += 6*k;`, `x` being a `uint8_t`. -/
def text57_scaled_loop (fb : Framebuffer) (x y : Nat) : List Char → Nat → Framebuffer × Nat
  | [], _ => (fb, x)
  | ch :: rest, k =>
    match findGlyph ch FONT_5x7 with
    | none => text57_scaled_loop fb ((x + 6 * k) % 256) y rest k
    | some g => text57_scaled_loop (drawGlyph fb x y g k) ((x + 6 * k) % 256) y rest k

/-- Function `text57_scaled`: the framebuffer after drawing `s` at `(x, y)`
with scale `k`. -/
def text57_scaled (fb : Framebuffer) (x y : Nat) (s : List Char) (k : Nat) : Framebuffer :=
  (text57_scaled_loop fb x y s k).1

/-! ## Gate drawing -/

/-- Function `drawDGateBody`: two horizontal edges, the left edge, and the
14 verticals of the curved end; `x1-8+i`, `y0+3+i/3` and `y1-3-i/3` are `int`
values converted to `uint8_t` arguments. -/
def drawDGateBody (fuel : Nat) (fb : Framebuffer) (x0 y0 x1 y1 : Nat) : Option Framebuffer := do
  let fb ← oled_hline fuel fb x0 ((x1 + 256 - 8) % 256) y0 true
  let fb ← oled_hline fuel fb x0 ((x1 + 256 - 8) % 256) y1 true
  let fb ← oled_vline fuel fb x0 y0 y1 true
  (List.range 14).foldlM (fun fb i =>
    oled_vline fuel fb ((x1 + 256 - 8 + i) % 256) ((y0 + 3 + i / 3) % 256)
      ((y1 + 256 - 3 - i / 3) % 256) true) fb

/-- Function `drawBit`: `if(v) text57_scaled(x,y,"1",1); else
text57_scaled(x,y,"0",1);`. -/
def drawBit (fb : Framebuffer) (x y : Nat) (v : Bool) : Framebuffer :=
  if v then text57_scaled fb x y "1".toList 1 else text57_scaled fb x y "0".toList 1

/-- The `switch(gf)` of `renderOLED` choosing the labels `(top, bot)`. -/
def gateLabels (gf : Nat) : String × String :=
  match gf with
  | 0 => ("AND ", "NAND")
  | 1 => ("OR  ", "NOR ")
  | 2 => ("XOR ", "XNOR")
  | 3 => ("MAJ ", "MIN ")
  | 4 => ("NOT ", "NOT ")
  | _ => ("    ", "    ")

/-- Function `renderOLED`, up to the final `oled_flush()`, which only reads
the framebuffer and streams its 1024 bytes to the display. -/
def renderOLED (fuel : Nat) (fb : Framebuffer) (gf : Nat)
    (in1 in2 in3 _in4_unused Y Yb : Bool) : Option Framebuffer := do
  let fb := oled_clear fb
  let x0 := 30
  let x1 := 98
  let y0 := 10
  let y1 := 54
  let fb ← drawDGateBody fuel fb x0 y0 x1 y1
  let top := (gateLabels gf).1
  let bot := (gateLabels gf).2
  let fb := text57_scaled fb ((x0 + 8) % 256) 18 top.toList 2
  let fb := text57_scaled fb ((x0 + 8) % 256) 36 bot.toList 2
  let oy1 := 26
  let oy2 := 38
  let outLineEnd := (x1 + 12) % 256
  let outLblX := (x1 + 14) % 256
  let outBitX := (x1 + 20) % 256
  let fb ← oled_hline fuel fb x1 outLineEnd oy1 true
  let fb ← oled_hline fuel fb x1 outLineEnd oy2 true
  let fb :=
    if gf = GF_DUALNOT then
      text57_scaled (text57_scaled fb outLblX (oy1 - 2) "Y1".toList 1)
        outLblX (oy2 - 2) "Y2".toList 1
    else
      text57_scaled (text57_scaled fb outLblX (oy1 - 2) "Y".toList 1)
        outLblX (oy2 - 2) "/Y".toList 1
  let fb := drawBit fb outBitX (oy1 - 2) Y
  let fb := drawBit fb outBitX (oy2 - 2) Yb
  let inStart := 14
  let inEnd := (x0 + 256 - 3) % 256
  let bitX := (inEnd + 256 - 16) % 256
  if gf = GF_DUALNOT then
    let fb ← [oy1, oy2].foldlM (fun fb iy => oled_hline fuel fb inStart inEnd iy true) fb
    let fb := drawBit fb bitX (oy1 - 3) in1
    let fb := drawBit fb bitX (oy2 - 3) in2
    pure fb
  else
    let fb ← [18, 32, 46].foldlM (fun fb iy => oled_hline fuel fb inStart inEnd iy true) fb
    let fb := drawBit fb bitX (18 - 3) in1
    let fb := drawBit fb bitX (32 - 3) in2
    let fb := drawBit fb bitX (46 - 3) in3
    pure fb

/-- The display call at the end of `loop()`: `if (g_hasOLED)
renderOLED(g_gateFamily, in1,in2,in3,false, Y, Yb);` with the values of this
cycle; `none` also when there is no display to draw on. -/
def loopRender (fuel : Nat) (fb : Framebuffer) (s : State) (inp : CycleInput) :
    Option Framebuffer :=
  let r := loop s inp
  if r.1.g_hasOLED then
    renderOLED fuel fb r.1.g_gateFamily r.2.in1 r.2.in2 r.2.in3 false r.2.Y r.2.Yb
  else none

/-! ## Pixel vocabulary -/

/-- Whether the pixel `(px, py)` of the 128x64 screen is lit in `fb`: bit
`py mod 8` of byte `(py div 8) * 128 + px`; `false` off screen. -/
def pixelOn (fb : Framebuffer) (px py : Nat) : Bool :=
  if h : px < 128 ∧ py < 64 then (fb ⟨(py / 8) * 128 + px, by omega⟩).testBit (py % 8)
  else false

/-- Bit `ry` of column `cx` of the glyph of the `j`-th character of `s`;
`false` when the character has no glyph in `FONT_5x7`. -/
def glyphBit (s : List Char) (j cx ry : Nat) : Bool :=
  match s[j]? with
  | none => false
  | some ch =>
    match findGlyph ch FONT_5x7 with
    | none => false
    | some g => (g.getD cx 0).testBit ry

/-- The all-zero framebuffer. -/
def blankFB : Framebuffer :=
  fun _ => 0

/-- A cycle in which the rows 1, 2 and 3 read `r1`, `r2`, `r3` steadily on
their first pin, every other pin is low and the button is released. -/
def rowsCycle (r1 r2 r3 : Bool) : CycleInput :=
  { row1 := [steady r1, steady false, steady false]
    row2 := [steady r2, steady false]
    row3 := [steady r3, steady false]
    row4 := [steady false, steady false, steady false]
    btn := steady false }

/-! ## Shipping preset `AND-NAND.cpp` -/

/-- Function `readStable` of `AND-NAND.cpp`: `uint8_t s = 0;` three times
`s += readPinLogical(pin);`, then `return s >= 2;`. -/
def AndNand.readStable (p : Samples) : Bool :=
  let s0 : Nat := 0
  let s1 := (s0 + p.s1.toNat) % 256
  let s2 := (s1 + p.s2.toNat) % 256
  let s3 := (s2 + p.s3.toNat) % 256
  decide (s3 ≥ 2)

/-- Function `rowOR_arr` of `AND-NAND.cpp`: `true` at the first pin whose
`readStable` is true, `false` when none is. -/
def AndNand.rowOR_arr : List Samples → Bool
  | [] => false
  | p :: rest => if AndNand.readStable p then true else AndNand.rowOR_arr rest

/-- The two lines `bool andOut = (in1 && in2 && in3 && in4); bool nandOut =
!andOut;` of the preset's `loop()`; the result is `(andOut, nandOut)`. -/
def AndNand.evalOutputs (in1 in2 in3 in4 : Bool) : Bool × Bool :=
  let andOut := in1 && in2 && in3 && in4
  let nandOut := !andOut
  (andOut, nandOut)

/-- What one pass of the preset's `loop()` drives: the four row values and the
two bus values. -/
structure AndNand.Outputs where
  in1 : Bool
  in2 : Bool
  in3 : Bool
  in4 : Bool
  andOut : Bool
  nandOut : Bool
deriving DecidableEq, Repr

/-- One pass of `loop()` of `AND-NAND.cpp` up to the point where the buses are
driven: all four rows are aggregated, there is no button and no state. -/
def AndNand.loop (inp : CycleInput) : AndNand.Outputs :=
  let in1 := AndNand.rowOR_arr inp.row1
  let in2 := AndNand.rowOR_arr inp.row2
  let in3 := AndNand.rowOR_arr inp.row3
  let in4 := AndNand.rowOR_arr inp.row4
  let r := AndNand.evalOutputs in1 in2 in3 in4
  { in1 := in1, in2 := in2, in3 := in3, in4 := in4, andOut := r.1, nandOut := r.2 }

end LogicGates

namespace LogicGates

/-! ## Gate engine -/

/-- C1: for each of the families AND_NAND, OR_NOR, XOR_XNOR and MAJ_MIN, in
both topology modes and for all row values, the evaluation block of `loop()`
yields `Yb = NOT Y`. -/
theorem C1_complementary_outputs (g_hasOLED in1 in2 in3 in4 : Bool) :
    (evalLogic g_hasOLED GF_ANDNAND in1 in2 in3 in4).2
        = !(evalLogic g_hasOLED GF_ANDNAND in1 in2 in3 in4).1 ∧
    (evalLogic g_hasOLED GF_ORNOR in1 in2 in3 in4).2
        = !(evalLogic g_hasOLED GF_ORNOR in1 in2 in3 in4).1 ∧
    (evalLogic g_hasOLED GF_XORXNOR in1 in2 in3 in4).2
        = !(evalLogic g_hasOLED GF_XORXNOR in1 in2 in3 in4).1 ∧
    (evalLogic g_hasOLED GF_MAJMIN in1 in2 in3 in4).2
        = !(evalLogic g_hasOLED GF_MAJMIN in1 in2 in3 in4).1 := by
  cases g_hasOLED <;> refine ⟨rfl, rfl, rfl, rfl⟩

/-- C2: under DUAL_NOT, in both topology modes and for all row values,
`Y = NOT in2` and `Yb = NOT in3`; the pair does not depend on rows 1 and 4,
and there are row values at which `Yb = Y`, so the outputs are not
complements in general. -/
theorem C2_dual_not (g_hasOLED in1 in2 in3 in4 : Bool) :
    evalLogic g_hasOLED GF_DUALNOT in1 in2 in3 in4 = (!in2, !in3) ∧
    (∀ r1 r4 : Bool, evalLogic g_hasOLED GF_DUALNOT r1 in2 in3 r4
        = evalLogic g_hasOLED GF_DUALNOT in1 in2 in3 in4) ∧
    (∃ a b c d : Bool, (evalLogic g_hasOLED GF_DUALNOT a b c d).2
        = (evalLogic g_hasOLED GF_DUALNOT a b c d).1) := by
  cases g_hasOLED
  · exact ⟨rfl, fun _ _ => rfl, false, false, false, false, rfl⟩
  · exact ⟨rfl, fun _ _ => rfl, false, false, false, false, rfl⟩

/-- C3: under MAJ_MIN, with a display `Y` is true iff at least 2 of rows 1..3
are true, and without one `Y` is true iff at least 3 of rows 1..4 are true;
exactly 2 true rows out of 4 give `Y = false`; the two thresholds are
`ceil((n+1)/2)` for `n = 3` and `n = 4`. -/
theorem C3_majority_threshold (in1 in2 in3 in4 : Bool) :
    ((evalLogic true GF_MAJMIN in1 in2 in3 in4).1 = true
        ↔ 2 ≤ countTrue [in1, in2, in3]) ∧
    ((evalLogic false GF_MAJMIN in1 in2 in3 in4).1 = true
        ↔ 3 ≤ countTrue [in1, in2, in3, in4]) ∧
    (countTrue [in1, in2, in3, in4] = 2
        → (evalLogic false GF_MAJMIN in1 in2 in3 in4).1 = false) ∧
    (2 = ⌈((3 : ℚ) + 1) / 2⌉₊ ∧ 3 = ⌈((4 : ℚ) + 1) / 2⌉₊) := by
  refine ⟨?_, ?_, ?_, ?_, ?_⟩
  · cases in1 <;> cases in2 <;> cases in3 <;> cases in4 <;> decide
  · cases in1 <;> cases in2 <;> cases in3 <;> cases in4 <;> decide
  · cases in1 <;> cases in2 <;> cases in3 <;> cases in4 <;> decide
  · symm; rw [Nat.ceil_eq_iff (by norm_num)]; norm_num
  · symm; rw [Nat.ceil_eq_iff (by norm_num)]; norm_num

/-- C3, at the boundary input of the 4-input mode: rows 1 and 2 true, rows 3
and 4 false. -/
theorem C3_majority_threshold_witness :
    countTrue [true, true, false, false] = 2 ∧
    (evalLogic false GF_MAJMIN true true false false).1 = false :=
  ⟨by decide, (C3_majority_threshold true true false false).2.2.1 (by decide)⟩

/-- C4: under AND_NAND, with a display `Y` is true iff rows 1, 2 and 3 are all
true, whatever row 4 is, and the pins of row 4 are not consulted by `loop()`;
without a display `Y` is true iff rows 1, 2, 3 and 4 are all true. -/
theorem C4_and_nand (in1 in2 in3 in4 : Bool) :
    ((evalLogic true GF_ANDNAND in1 in2 in3 in4).1 = true
        ↔ in1 = true ∧ in2 = true ∧ in3 = true) ∧
    ((evalLogic false GF_ANDNAND in1 in2 in3 in4).1 = true
        ↔ in1 = true ∧ in2 = true ∧ in3 = true ∧ in4 = true) ∧
    (∀ (s : State) (inp : CycleInput) (pins4 : List Samples),
        (loop { s with g_hasOLED := true } { inp with row4 := pins4 }).2
          = (loop { s with g_hasOLED := true } inp).2) := by
  refine ⟨?_, ?_, fun s inp pins4 => rfl⟩
  · cases in1 <;> cases in2 <;> cases in3 <;> cases in4 <;> decide
  · cases in1 <;> cases in2 <;> cases in3 <;> cases in4 <;> decide

/-- C5: under XOR_XNOR, in both topology modes, `Y` is true iff the number of
true rows among the rows in scope (rows 1..3 with a display, rows 1..4
without) is odd. -/
theorem C5_xor_parity (in1 in2 in3 in4 : Bool) :
    ((evalLogic true GF_XORXNOR in1 in2 in3 in4).1 = true
        ↔ countTrue [in1, in2, in3] % 2 = 1) ∧
    ((evalLogic false GF_XORXNOR in1 in2 in3 in4).1 = true
        ↔ countTrue [in1, in2, in3, in4] % 2 = 1) := by
  refine ⟨?_, ?_⟩
  · cases in1 <;> cases in2 <;> cases in3 <;> cases in4 <;> decide
  · cases in1 <;> cases in2 <;> cases in3 <;> cases in4 <;> decide

/-! ## Configuration state machine -/

/-- With a display, the button block leaves `g_hasOLED` alone, records the
debounced sample in `lastBtn`, and advances the family on a rising edge only. -/
theorem modeButton_oled (s : State) (b : Samples) (hO : s.g_hasOLED = true) :
    (modeButton s b).g_hasOLED = true ∧
    (modeButton s b).lastBtn = readStable b ∧
    (modeButton s b).g_gateFamily
      = if (readStable b && !s.lastBtn) = true
        then ((s.g_gateFamily + 1) % GF__COUNT) % 256 else s.g_gateFamily := by
  unfold modeButton
  rw [if_pos hO]
  by_cases h : (readStable b && !s.lastBtn) = true
  · simp only [h, if_true, saveSettings, and_self, hO]
  · simp only [h, if_false, and_self, hO]
    simp [hO]

/-- Without a display the button block changes nothing. -/
theorem modeButton_standalone (s : State) (b : Samples) (hO : s.g_hasOLED = false) :
    modeButton s b = s := by
  unfold modeButton
  simp [hO]

/-- The state component of `loop` is the button block. -/
theorem loop_state (s : State) (inp : CycleInput) :
    (loop s inp).1 = modeButton s inp.btn := rfl

/-- The family after a run with a display: the start family advanced, modulo
the family count, by the number of rising edges of the debounced button. -/
theorem runLoop_family (inputs : List CycleInput) :
    ∀ s : State, s.g_hasOLED = true → s.g_gateFamily < GF__COUNT →
      (runLoop s inputs).g_gateFamily
        = (s.g_gateFamily + risingEdges s.lastBtn (buttonTrace inputs)) % GF__COUNT := by
  induction inputs with
  | nil =>
    intro s _ hf
    simp [runLoop, buttonTrace, risingEdges, Nat.mod_eq_of_lt hf]
  | cons inp rest ih =>
    intro s hO hf
    obtain ⟨h1, h2, h3⟩ := modeButton_oled s inp.btn hO
    have hlt : (modeButton s inp.btn).g_gateFamily < GF__COUNT := by
      rw [h3]; unfold GF__COUNT at *; split <;> omega
    have key := ih (modeButton s inp.btn) h1 hlt
    simp only [runLoop, loop_state, buttonTrace, List.map_cons, risingEdges] at key ⊢
    rw [key, h2, h3]
    unfold GF__COUNT at *
    split <;> omega

/-- The family stays below the family count through any run, in either mode. -/
theorem runLoop_family_lt (inputs : List CycleInput) :
    ∀ s : State, s.g_gateFamily < GF__COUNT →
      (runLoop s inputs).g_gateFamily < GF__COUNT := by
  induction inputs with
  | nil => intro s hf; exact hf
  | cons inp rest ih =>
    intro s hf
    simp only [runLoop, loop_state]
    apply ih
    cases hO : s.g_hasOLED with
    | false => rw [modeButton_standalone s inp.btn hO]; exact hf
    | true =>
      rw [(modeButton_oled s inp.btn hO).2.2]
      unfold GF__COUNT at *
      split <;> omega

/-- C6: from a valid family `f` (`f < 5`) with a display present, a cycle whose
debounced button sample is a rising edge sets the family to `(f + 1) mod 5`;
over any run the family is `f` advanced by the number of rising edges modulo 5,
so exactly 5 edges bring it back to `f` and 1 to 4 edges never do. -/
theorem C6_button_cycles_family (f : Nat) (hf : f < GF__COUNT) (s : State)
    (hO : s.g_hasOLED = true) (hs : s.g_gateFamily = f) :
    (∀ inp : CycleInput, readStable inp.btn = true → s.lastBtn = false →
        (loop s inp).1.g_gateFamily = (f + 1) % GF__COUNT) ∧
    (∀ inputs : List CycleInput, (runLoop s inputs).g_gateFamily
        = (f + risingEdges s.lastBtn (buttonTrace inputs)) % GF__COUNT) ∧
    (∀ inputs : List CycleInput,
        risingEdges s.lastBtn (buttonTrace inputs) = GF__COUNT →
          (runLoop s inputs).g_gateFamily = f) ∧
    (∀ inputs : List CycleInput,
        1 ≤ risingEdges s.lastBtn (buttonTrace inputs) →
        risingEdges s.lastBtn (buttonTrace inputs) < GF__COUNT →
          (runLoop s inputs).g_gateFamily ≠ f) := by
  have run := fun inputs => runLoop_family inputs s hO (hs ▸ hf)
  rw [hs] at run
  refine ⟨?_, run, ?_, ?_⟩
  · intro inp hb hl
    rw [loop_state, (modeButton_oled s inp.btn hO).2.2, hb, hl, hs]
    unfold GF__COUNT at *
    simp only [Bool.not_false, Bool.and_self, if_true]
    omega
  · intro inputs hk
    rw [run, hk]
    unfold GF__COUNT at *
    omega
  · intro inputs h1 h4
    rw [run]
    unfold GF__COUNT at *
    omega

/-- C6, at family 3 (MAJ_MIN) and five presses of the button. -/
theorem C6_button_cycles_family_witness :
    3 < GF__COUNT ∧
    risingEdges (displaySession 3).lastBtn (buttonTrace (presses 5)) = GF__COUNT ∧
    (runLoop (displaySession 3) (presses 5)).g_gateFamily = 3 :=
  ⟨by decide, by decide,
    (C6_button_cycles_family 3 (by decide) (displaySession 3) rfl rfl).2.2.1
      (presses 5) (by decide)⟩

/-- C7: `loadSettings` sets the family to `FACTORY_DEFAULT_GATE` when the
persisted byte `v` is 5 or more (whatever `v mod 5` is), and to `v` itself
when `v < 5`. -/
theorem C7_loadSettings_range (s : State) (v : Nat)
    (hv : s.eeprom.read EE_GATE_FAMILY = v) :
    v < 256 ∧
    (GF__COUNT ≤ v → (loadSettings s).g_gateFamily = FACTORY_DEFAULT_GATE) ∧
    (v < GF__COUNT → (loadSettings s).g_gateFamily = v) := by
  subst hv
  refine ⟨Nat.mod_lt _ (by decide), ?_, ?_⟩
  · intro h
    simp only [loadSettings, ge_iff_le, if_pos h]
  · intro h
    simp only [loadSettings, ge_iff_le, if_neg (Nat.not_le.mpr h)]

/-- C7, at the persisted byte equal to the family count. -/
theorem C7_loadSettings_range_witness :
    (State.init (eepromHolding 5)).eeprom.read EE_GATE_FAMILY = 5 ∧
    (loadSettings (State.init (eepromHolding 5))).g_gateFamily = FACTORY_DEFAULT_GATE :=
  ⟨by decide,
    (C7_loadSettings_range (State.init (eepromHolding 5)) 5 (by decide)).2.1 (by decide)⟩

/-- C8: on first boot with an erased EEPROM (byte `0xFF` at `EE_GATE_FAMILY`),
`setup()` restores `GF_ORNOR`, which is `FACTORY_DEFAULT_GATE`, and not
`GF_ANDNAND` as the comment at the call of `loadSettings` says. -/
theorem C8_first_boot_family :
    erasedEeprom.read EE_GATE_FAMILY = 0xFF ∧
    (∀ probeResult : Bool,
      (setup erasedEeprom probeResult).g_gateFamily = GF_ORNOR ∧
      (setup erasedEeprom probeResult).g_gateFamily ≠ GF_ANDNAND) := by
  refine ⟨by decide, fun probeResult => ⟨rfl, by cases probeResult <;> decide⟩⟩

/-- C9: the family is a valid variant after `loadSettings` on any persisted
byte, and stays one after any run of `loop()` cycles from there, in either
topology mode and with any pin samples. -/
theorem C9_family_in_range (s : State) :
    (loadSettings s).g_gateFamily < GF__COUNT ∧
    (∀ (probeResult : Bool) (inputs : List CycleInput),
      (runLoop { loadSettings s with g_hasOLED := probeResult } inputs).g_gateFamily
        < GF__COUNT) ∧
    (∀ (e : Eeprom) (probeResult : Bool) (inputs : List CycleInput),
      (runLoop (setup e probeResult) inputs).g_gateFamily < GF__COUNT) := by
  have load : ∀ t : State, (loadSettings t).g_gateFamily < GF__COUNT := by
    intro t
    simp only [loadSettings, ge_iff_le]
    split
    · decide
    · omega
  exact ⟨load s, fun probeResult inputs => runLoop_family_lt inputs _ (load s),
    fun e probeResult inputs => runLoop_family_lt inputs _ (load (State.init e))⟩

/-- C10: with `EEPROM.update` as compare-then-write, after a cycle with a
confirmed button edge the persisted byte equals the new active family, and
`saveSettings` called while the persisted byte already equals the active
family writes nothing and leaves the state, store included, unchanged. -/
theorem C10_persist_on_edge (s : State) :
    (∀ inp : CycleInput, s.g_hasOLED = true → readStable inp.btn = true →
        s.lastBtn = false →
          (loop s inp).1.eeprom.read EE_GATE_FAMILY = (loop s inp).1.g_gateFamily ∧
          (loop s inp).1.g_gateFamily = (s.g_gateFamily + 1) % GF__COUNT) ∧
    (s.eeprom.read EE_GATE_FAMILY = s.g_gateFamily →
        saveSettings s = s ∧ (saveSettings s).eeprom.writes = s.eeprom.writes) := by
  constructor
  · intro inp hO hb hl
    have hlt : (s.g_gateFamily + 1) % GF__COUNT < 5 := Nat.mod_lt _ (by decide)
    have h256 : (s.g_gateFamily + 1) % GF__COUNT % 256 = (s.g_gateFamily + 1) % GF__COUNT := by
      omega
    simp only [loop, modeButton, hO, hb, hl, if_true, Bool.not_false, Bool.and_self,
      saveSettings, Eeprom.update, h256, and_true]
    split
    · simp [Eeprom.read, Eeprom.write, h256]
    · rename_i h
      simpa using h
  · intro h
    have h256 : s.g_gateFamily % 256 = s.g_gateFamily := by
      rw [← h]; unfold Eeprom.read; omega
    have hs : saveSettings s = s := by
      simp [saveSettings, Eeprom.update, h256, h]
    exact ⟨hs, by rw [hs]⟩

/-- C10, at a display session with XOR_XNOR active and saved: a button press
persists family 3, and a redundant `saveSettings` is a no-op. -/
theorem C10_persist_on_edge_witness :
    ((displaySession 2).g_hasOLED = true ∧ readStable (buttonCycle true).btn = true ∧
      (displaySession 2).lastBtn = false ∧
      (loop (displaySession 2) (buttonCycle true)).1.eeprom.read EE_GATE_FAMILY = 3) ∧
    ((displaySession 2).eeprom.read EE_GATE_FAMILY = (displaySession 2).g_gateFamily ∧
      saveSettings (displaySession 2) = displaySession 2) :=
  ⟨⟨rfl, by decide, rfl,
      ((C10_persist_on_edge (displaySession 2)).1 (buttonCycle true) rfl (by decide) rfl).1.trans
        ((C10_persist_on_edge (displaySession 2)).1 (buttonCycle true) rfl (by decide) rfl).2⟩,
    ⟨by decide, ((C10_persist_on_edge (displaySession 2)).2 (by decide)).1⟩⟩

/-! ## Sampler -/

/-- OR-ing the debounced values of all pins of a row, none skipped. -/
theorem rowOR_arr_eq_any (pins : List Samples) :
    rowOR_arr pins = pins.any readStable := by
  induction pins with
  | nil => rfl
  | cons p rest ih =>
    simp only [rowOR_arr, List.any_cons, ih]
    cases readStable p <;> simp

/-- A left fold of `||` over a list of values is `true` iff it starts `true`
or some value is. -/
theorem foldl_or_eq_any (vals : List Bool) :
    ∀ acc : Bool, vals.foldl (fun a v => a || v) acc = (acc || vals.any id) := by
  induction vals with
  | nil => intro acc; simp
  | cons v rest ih => intro acc; simp [List.foldl_cons, ih, Bool.or_assoc]

/-- C12: `readStable` is true iff at least 2 of its 3 samples are high;
`rowOR_arr` over a row is true iff some pin of the row has a true debounced
value, false iff every pin has a false one, and equals the OR of the debounced
values of all pins of the row, so returning at the first true pin does not
change the result. -/
theorem C12_debounce_and_row_or (p : Samples) (pins : List Samples) :
    (readStable p = true ↔ 2 ≤ countTrue [p.s1, p.s2, p.s3]) ∧
    (rowOR_arr pins = true ↔ ∃ q ∈ pins, readStable q = true) ∧
    (rowOR_arr pins = false ↔ ∀ q ∈ pins, readStable q = false) ∧
    rowOR_arr pins = (pins.map readStable).foldl (fun acc v => acc || v) false := by
  refine ⟨?_, ?_, ?_, ?_⟩
  · obtain ⟨a, b, c⟩ := p
    cases a <;> cases b <;> cases c <;> decide
  · rw [rowOR_arr_eq_any, List.any_eq_true]
  · rw [rowOR_arr_eq_any, List.any_eq_false]
    simp
  · rw [rowOR_arr_eq_any, foldl_or_eq_any, Bool.false_or]
    induction pins with
    | nil => rfl
    | cons q rest ih => simp only [List.any_cons, List.map_cons, id, ih]

/-- C12, at a 3-pin row whose last pin alone is high on two samples of three. -/
theorem C12_debounce_and_row_or_witness :
    (∃ q ∈ [steady false, steady false, { s1 := true, s2 := false, s3 := true }],
        readStable q = true) ∧
    rowOR_arr [steady false, steady false, { s1 := true, s2 := false, s3 := true }] = true :=
  ⟨⟨{ s1 := true, s2 := false, s3 := true }, by decide, by decide⟩,
    (C12_debounce_and_row_or (steady false)
      [steady false, steady false, { s1 := true, s2 := false, s3 := true }]).2.1.mpr
      ⟨{ s1 := true, s2 := false, s3 := true }, by decide, by decide⟩⟩

/-! ## Bit-banged I2C -/

/-- The mask test `b & 0x80` reads bit 7. -/
theorem and_0x80_ne_zero (b : Nat) : ((b &&& 0x80) != 0) = b.testBit 7 := by
  have h := Nat.and_two_pow b 7
  norm_num at h
  rw [h]
  cases b.testBit 7 <;> decide

/-- After `b <<= 1` in a `uint8_t`, bit `j + 1` is the old bit `j`. -/
theorem testBit_shl_byte (b j : Nat) (hj : j < 7) :
    ((b <<< 1) % 256).testBit (j + 1) = b.testBit j := by
  have h := Nat.testBit_mod_two_pow (b <<< 1) 8 (j + 1)
  norm_num at h
  have hlt : j + 1 < 8 := by omega
  rw [h]
  simp [hlt]

/-- The line operations that present one data bit and clock it. -/
theorem i2c_write_bits_log (n : Nat) :
    ∀ (s : Bus) (b : Nat), n ≤ 8 →
      (i2c_write_bits n s b).log
        = s.log ++ ((List.range n).map fun i => b.testBit (7 - i)).flatMap
            (fun bit => [if bit then BusOp.sdaHigh else BusOp.sdaLow, .sclHigh, .sclLow]) ∧
      (i2c_write_bits n s b).reads = s.reads ∧
      (i2c_write_bits n s b).g_oledAddr = s.g_oledAddr := by
  induction n with
  | zero => intro s b _; simp [i2c_write_bits]
  | succ n ih =>
    intro s b hn
    have hbits : ∀ i ∈ List.range n,
        ((b <<< 1) % 256).testBit (7 - i) = b.testBit (7 - (i + 1)) := by
      intro i hi
      have hi8 : i < 7 := by have := List.mem_range.mp hi; omega
      have e : 7 - i = (7 - (i + 1)) + 1 := by omega
      rw [e]
      exact testBit_shl_byte b _ (by omega)
    simp only [i2c_write_bits, and_0x80_ne_zero]
    obtain ⟨h1, h2, h3⟩ := ih (sclLow (sclHigh (if b.testBit 7 then sdaHigh s else sdaLow s)))
      ((b <<< 1) % 256) (by omega)
    refine ⟨?_, ?_, ?_⟩
    · rw [h1, List.range_succ_eq_map, List.map_cons, List.map_map,
        List.map_congr_left hbits]
      cases b.testBit 7 <;>
        simp [sclLow, sclHigh, sdaHigh, sdaLow, Function.comp_def]
    · rw [h2]; cases b.testBit 7 <;> rfl
    · rw [h3]; cases b.testBit 7 <;> rfl

/-- What one address attempt of `probeOLED` does to the bus: the transaction
`i2c_start(); i2c_write(byte); i2c_stop();`. -/
theorem probe_attempt (line : Nat → Bool) (s : Bus) (b : Nat) :
    (i2c_stop (i2c_write line (i2c_start s) b).2).reads = s.reads + 1 ∧
    (i2c_stop (i2c_write line (i2c_start s) b).2).g_oledAddr = s.g_oledAddr ∧
    ((i2c_write line (i2c_start s) b).1 = !line s.reads) := by
  obtain ⟨_, h2, h3⟩ := i2c_write_bits_log 8 (i2c_start s) b (le_refl 8)
  have hr : (i2c_start s).reads = s.reads := rfl
  have ha : (i2c_start s).g_oledAddr = s.g_oledAddr := rfl
  refine ⟨?_, ?_, ?_⟩
  · simp [i2c_stop, i2c_write, readSDA, sclLow, sclHigh, sdaHigh, sdaLow, h2, hr]
  · simp [i2c_stop, i2c_write, readSDA, sclLow, sclHigh, sdaHigh, sdaLow, h3, ha]
  · simp [i2c_write, readSDA, sclLow, sclHigh, sdaHigh, sdaLow, h2, hr]

/-- C11: `probeOLED` addresses 0x3C first.  If that byte is acknowledged (the
first sample of the data line is low) it returns true with `g_oledAddr = 0x3C`
after that single transaction, so 0x3D is never addressed; if only the second
address byte, for 0x3D, is acknowledged it returns true with
`g_oledAddr = 0x3D`; if neither is, it returns false, leaves `g_oledAddr`
unchanged, and ends with both SDA and SCL in plain `INPUT` mode. -/
theorem C11_probe_order (line : Nat → Bool) (s : Bus) :
    (line s.reads = false →
      (probeOLED line s).1 = true ∧ (probeOLED line s).2.g_oledAddr = 0x3C ∧
      (probeOLED line s).2.reads = s.reads + 1 ∧
      (probeOLED line s).2.log
        = (i2c_stop (i2c_write line (i2c_start (sclHigh (sdaHigh s))) (0x3C * 2)).2).log) ∧
    (line s.reads = true → line (s.reads + 1) = false →
      (probeOLED line s).1 = true ∧ (probeOLED line s).2.g_oledAddr = 0x3D ∧
      (probeOLED line s).2.log
        = (i2c_stop (i2c_write line (i2c_start
            (i2c_stop (i2c_write line (i2c_start (sclHigh (sdaHigh s))) (0x3C * 2)).2))
              (0x3D * 2)).2).log) ∧
    (line s.reads = true → line (s.reads + 1) = true →
      (probeOLED line s).1 = false ∧ (probeOLED line s).2.g_oledAddr = s.g_oledAddr ∧
      (probeOLED line s).2.sdaMode = PinMode.INPUT ∧
      (probeOLED line s).2.sclMode = PinMode.INPUT) := by
  obtain ⟨r1, a1, k1⟩ := probe_attempt line (sclHigh (sdaHigh s)) (0x3C * 2)
  obtain ⟨r2, a2, k2⟩ := probe_attempt line
    (i2c_stop (i2c_write line (i2c_start (sclHigh (sdaHigh s))) (0x3C * 2)).2) (0x3D * 2)
  have hr : (sclHigh (sdaHigh s)).reads = s.reads := rfl
  have ha : (sclHigh (sdaHigh s)).g_oledAddr = s.g_oledAddr := rfl
  rw [hr] at r1 k1
  rw [r1] at r2 k2
  rw [ha] at a1
  rw [a1] at a2
  have e1 : ((0x3C <<< 1) ||| 0) % 256 = 0x3C * 2 := by decide
  have e2 : ((0x3D <<< 1) ||| 0) % 256 = 0x3D * 2 := by decide
  refine ⟨?_, ?_, ?_⟩
  · intro h0
    rw [h0] at k1
    simp only [probeOLED, probeOLED_loop, e1, k1, Bool.not_false, if_true, Bool.not_true,
      Bool.false_eq_true, if_false, r1, and_self, true_and]
  · intro h0 h1
    rw [h0] at k1
    rw [h1] at k2
    simp only [probeOLED, probeOLED_loop, e1, e2, k1, k2, Bool.not_false, if_true,
      Bool.not_true, Bool.false_eq_true, if_false, and_self, true_and]
  · intro h0 h1
    rw [h0] at k1
    rw [h1] at k2
    simp only [probeOLED, probeOLED_loop, e1, e2, k1, k2, Bool.not_false, if_true,
      Bool.not_true, Bool.false_eq_true, if_false, a2, and_self, true_and]

/-- C11, on a bus where no device answers the first address byte and one
answers the second. -/
theorem C11_probe_order_witness :
    (fun n => decide (n = 0)) Bus.init.reads = true ∧
    (fun n => decide (n = 0)) (Bus.init.reads + 1) = false ∧
    (probeOLED (fun n => decide (n = 0)) Bus.init).1 = true ∧
    (probeOLED (fun n => decide (n = 0)) Bus.init).2.g_oledAddr = 0x3D :=
  ⟨by decide, by decide,
    ((C11_probe_order (fun n => decide (n = 0)) Bus.init).2.1 (by decide) (by decide)).1,
    ((C11_probe_order (fun n => decide (n = 0)) Bus.init).2.1 (by decide) (by decide)).2.1⟩

/-- Without a display no run of `loop()` changes the state. -/
theorem runLoop_standalone (inputs : List CycleInput) :
    ∀ s : State, s.g_hasOLED = false → runLoop s inputs = s := by
  induction inputs with
  | nil => intro s _; rfl
  | cons inp rest ih =>
    intro s hO
    simp only [runLoop, loop_state, modeButton_standalone s inp.btn hO]
    exact ih s hO

/-- With a display, while the debounced button stays high after a high sample,
the family does not move. -/
theorem runLoop_held (inputs : List CycleInput) :
    ∀ s : State, s.g_hasOLED = true → s.lastBtn = true →
      (∀ inp ∈ inputs, readStable inp.btn = true) →
      (runLoop s inputs).g_gateFamily = s.g_gateFamily := by
  induction inputs with
  | nil => intro s _ _ _; rfl
  | cons inp rest ih =>
    intro s hO hl hall
    obtain ⟨h1, h2, h3⟩ := modeButton_oled s inp.btn hO
    have hb : readStable inp.btn = true := hall inp (List.mem_cons_self _ _)
    simp only [runLoop, loop_state]
    rw [ih (modeButton s inp.btn) h1 (h2.trans hb)
      (fun i hi => hall i (List.mem_cons_of_mem _ hi)), h3, hl]
    simp

/-- C20: in one cycle of `loop()` the family or the EEPROM changes only if a
display is present, the debounced button sample is true and the previous
sample was false; a button held true over consecutive cycles advances the
family exactly once; without a display no run of cycles changes the family or
writes the store. -/
theorem C20_change_only_on_edge (s : State) :
    (∀ inp : CycleInput,
      ((loop s inp).1.g_gateFamily ≠ s.g_gateFamily ∨ (loop s inp).1.eeprom ≠ s.eeprom) →
        s.g_hasOLED = true ∧ readStable inp.btn = true ∧ s.lastBtn = false) ∧
    (∀ (inp : CycleInput) (held : List CycleInput),
      s.g_hasOLED = true → s.lastBtn = false →
      (∀ i ∈ inp :: held, readStable i.btn = true) →
        (runLoop s (inp :: held)).g_gateFamily = (s.g_gateFamily + 1) % GF__COUNT) ∧
    (s.g_hasOLED = false → ∀ inputs : List CycleInput,
      runLoop s inputs = s ∧
      (runLoop s inputs).g_gateFamily = s.g_gateFamily ∧
      (runLoop s inputs).eeprom.writes = s.eeprom.writes) := by
  refine ⟨?_, ?_, ?_⟩
  · intro inp hchg
    by_contra hne
    apply hchg.elim <;> intro hc <;> apply hc <;> rw [loop_state]
    all_goals
      cases hO : s.g_hasOLED with
      | false => rw [modeButton_standalone s inp.btn hO]
      | true =>
        cases hb : readStable inp.btn with
        | false => simp [modeButton, hO, hb]
        | true =>
          cases hl : s.lastBtn with
          | false => exact absurd ⟨hO, hb, hl⟩ hne
          | true => simp [modeButton, hO, hb, hl]
  · intro inp held hO hl hall
    obtain ⟨h1, h2, h3⟩ := modeButton_oled s inp.btn hO
    have hb : readStable inp.btn = true := hall inp (List.mem_cons_self _ _)
    simp only [runLoop, loop_state]
    rw [runLoop_held held (modeButton s inp.btn) h1 (h2.trans hb)
      (fun i hi => hall i (List.mem_cons_of_mem _ hi)), h3, hb, hl]
    have hlt : (s.g_gateFamily + 1) % GF__COUNT < 5 := Nat.mod_lt _ (by decide)
    simp only [Bool.not_false, Bool.and_self, if_true]
    omega
  · intro hO inputs
    have h := runLoop_standalone inputs s hO
    exact ⟨h, by rw [h], by rw [h]⟩

/-- C20, at a display session with family 2 active and the button held high
for three cycles: the family advances once, to 3. -/
theorem C20_change_only_on_edge_witness :
    (displaySession 2).g_hasOLED = true ∧ (displaySession 2).lastBtn = false ∧
    (∀ i ∈ [buttonCycle true, buttonCycle true, buttonCycle true], readStable i.btn = true) ∧
    (runLoop (displaySession 2) [buttonCycle true, buttonCycle true, buttonCycle true]).g_gateFamily
      = 3 :=
  ⟨rfl, rfl, by decide,
    (C20_change_only_on_edge (displaySession 2)).2.1 (buttonCycle true)
      [buttonCycle true, buttonCycle true] rfl rfl (by decide)⟩

/-! ## Framebuffer -/

/-- The mask `1<<(y&7)` stored in a `uint8_t` is `2 ^ (y mod 8)`. -/
theorem pixel_mask (y : Nat) : (1 <<< (y &&& 7)) % 256 = 2 ^ (y % 8) := by
  have h := Nat.and_pow_two_sub_one_eq_mod y 3
  norm_num at h
  rw [h, Nat.one_shiftLeft]
  have h8 : y % 8 < 8 := Nat.mod_lt _ (by decide)
  have : 2 ^ (y % 8) < 2 ^ 8 := Nat.pow_lt_pow_right (by decide) h8
  exact Nat.mod_eq_of_lt (by simpa using this)

/-- Setting a bit of a byte: the `|=` store of `oled_pixel`. -/
theorem testBit_set (v b j : Nat) (hj : j < 8) :
    ((v ||| 2 ^ b) % 256).testBit j = (v.testBit j || decide (b = j)) := by
  have h := Nat.testBit_mod_two_pow (v ||| 2 ^ b) 8 j
  norm_num at h
  rw [h, Nat.testBit_two_pow]
  simp [hj]

/-- Clearing a bit of a byte: the `&= ~m` store of `oled_pixel`. -/
theorem testBit_clear (v b j : Nat) (hj : j < 8) :
    ((v &&& (0xFFFF ^^^ 2 ^ b)) % 256).testBit j = (v.testBit j && !decide (b = j)) := by
  have h := Nat.testBit_mod_two_pow (v &&& (0xFFFF ^^^ 2 ^ b)) 8 j
  norm_num at h
  have hF : (65535 : Nat).testBit j = true := by
    have := Nat.testBit_two_pow_sub_one 16 j
    norm_num at this
    rw [this]
    exact decide_eq_true (by omega)
  rw [h, Nat.testBit_two_pow, hF]
  simp [hj]

/-- The byte that `oled_pixel` leaves at each index, for a pixel on screen. -/
theorem oled_pixel_byte (fb : Framebuffer) (x y : Nat) (isOn : Bool)
    (hx : x ≤ 127) (hy : y ≤ 63) (i : Fin 1024) :
    oled_pixel fb x y isOn i
      = if i.val = (y / 8) * 128 + x then
          (if isOn then (fb i ||| 2 ^ (y % 8)) % 256
           else (fb i &&& (0xFFFF ^^^ 2 ^ (y % 8))) % 256)
        else fb i := by
  have hg : ¬ (x > 127 ∨ y > 63) := by omega
  have hidx : ((y >>> 3) * 128 + x) % 65536 = (y / 8) * 128 + x := by
    rw [Nat.shiftRight_eq_div_pow]; omega
  unfold oled_pixel
  rw [dif_neg hg]
  simp only [pixel_mask, hidx]
  by_cases hi : i.val = (y / 8) * 128 + x
  · have hi2 : i = (⟨(y / 8) * 128 + x, by omega⟩ : Fin 1024) := Fin.ext hi
    rw [if_pos hi]
    cases isOn <;> simp [← hi2]
  · have hi2 : i ≠ (⟨(y / 8) * 128 + x, by omega⟩ : Fin 1024) := fun h => hi (by rw [h])
    cases isOn <;> simp [hi, hi2]

/-- Off screen, `oled_pixel` returns the framebuffer it was given. -/
theorem oled_pixel_clip (fb : Framebuffer) (x y : Nat) (isOn : Bool)
    (h : x > 127 ∨ y > 63) : oled_pixel fb x y isOn = fb := by
  unfold oled_pixel
  rw [dif_pos h]

/-- C13: `oled_pixel(x, y, on)` leaves the framebuffer unchanged when
`x > 127` or `y > 63`; otherwise the index `(y div 8) * 128 + x` is below 1024,
every other byte is unchanged, and among the 8 bits of every byte exactly bit
`y mod 8` of that byte is set to `on`, all others keeping their value. -/
theorem C13_oled_pixel_frame (fb : Framebuffer) (x y : Nat) (isOn : Bool) :
    ((x > 127 ∨ y > 63) → oled_pixel fb x y isOn = fb) ∧
    (x ≤ 127 → y ≤ 63 →
      (y / 8) * 128 + x < 1024 ∧
      (∀ i : Fin 1024, i.val ≠ (y / 8) * 128 + x → oled_pixel fb x y isOn i = fb i) ∧
      (∀ (i : Fin 1024) (j : Nat), j < 8 →
        (oled_pixel fb x y isOn i).testBit j
          = if i.val = (y / 8) * 128 + x ∧ j = y % 8 then isOn else (fb i).testBit j)) := by
  refine ⟨oled_pixel_clip fb x y isOn, fun hx hy => ⟨by omega, ?_, ?_⟩⟩
  · intro i hi
    rw [oled_pixel_byte fb x y isOn hx hy, if_neg hi]
  · intro i j hj
    rw [oled_pixel_byte fb x y isOn hx hy]
    by_cases hi : i.val = (y / 8) * 128 + x
    · rw [if_pos hi]
      cases isOn
      · simp only [Bool.false_eq_true, if_false, testBit_clear _ _ _ hj, hi, true_and]
        by_cases hb : j = y % 8
        · simp [hb]
        · have : ¬ y % 8 = j := fun h => hb h.symm
          simp [hb, this]
      · simp only [if_true, testBit_set _ _ _ hj, hi, true_and]
        by_cases hb : j = y % 8
        · simp [hb]
        · have : ¬ y % 8 = j := fun h => hb h.symm
          simp [hb, this]
    · simp [hi]

/-- C13, at the pixel (11, 24) of a blank framebuffer: bit 0 of byte 395. -/
theorem C13_oled_pixel_frame_witness :
    (11 ≤ 127 ∧ 24 ≤ 63) ∧ (24 / 8) * 128 + 11 < 1024 ∧
    (oled_pixel blankFB 11 24 true ⟨395, by decide⟩).testBit 0 = true :=
  ⟨⟨by decide, by decide⟩,
    (C13_oled_pixel_frame blankFB 11 24 true).2 (by decide) (by decide) |>.1,
    ((C13_oled_pixel_frame blankFB 11 24 true).2 (by decide) (by decide)).2.2
      ⟨395, by decide⟩ 0 (by decide)⟩

/-- Reading a screen pixel after `oled_pixel`: the written pixel takes the
value `on`, every other pixel keeps its value. -/
theorem pixelOn_oled_pixel (fb : Framebuffer) (x y : Nat) (isOn : Bool) (px py : Nat)
    (hpx : px < 128) (hpy : py < 64) :
    pixelOn (oled_pixel fb x y isOn) px py
      = if x = px ∧ y = py then isOn else pixelOn fb px py := by
  by_cases hclip : x > 127 ∨ y > 63
  · rw [oled_pixel_clip fb x y isOn hclip]
    have : ¬ (x = px ∧ y = py) := by omega
    rw [if_neg this]
  · have hx : x ≤ 127 := by omega
    have hy : y ≤ 63 := by omega
    have hp : px < 128 ∧ py < 64 := ⟨hpx, hpy⟩
    have h8 : py % 8 < 8 := Nat.mod_lt _ (by decide)
    simp only [pixelOn, dif_pos hp]
    rw [((C13_oled_pixel_frame fb x y isOn).2 hx hy).2.2 _ _ h8]
    have : ((py / 8) * 128 + px = (y / 8) * 128 + x ∧ py % 8 = y % 8) ↔ (x = px ∧ y = py) := by
      omega
    simp only [this]

/-- Every bit of every framebuffer byte is the pixel of one screen position. -/
theorem pixelOn_bit (fb : Framebuffer) (i : Fin 1024) (j : Nat) (hj : j < 8) :
    pixelOn fb (i.val % 128) (i.val / 128 * 8 + j) = (fb i).testBit j := by
  have hi := i.isLt
  have hp : i.val % 128 < 128 ∧ i.val / 128 * 8 + j < 64 := by omega
  simp only [pixelOn, dif_pos hp]
  have e1 : (i.val / 128 * 8 + j) / 8 * 128 + i.val % 128 = i.val := by omega
  have e2 : (i.val / 128 * 8 + j) % 8 = j := by omega
  have e3 : (⟨(i.val / 128 * 8 + j) / 8 * 128 + i.val % 128, by omega⟩ : Fin 1024) = i :=
    Fin.ext e1
  rw [e2, e3]

/-- A left fold of drawing steps that each light a pixel exactly when `P`
holds of the step lights it exactly when `P` holds of some step. -/
theorem foldl_lights {α : Type} (px py : Nat) (f : Framebuffer → α → Framebuffer)
    (P : α → Prop)
    (h : ∀ fb a, pixelOn (f fb a) px py = true ↔ pixelOn fb px py = true ∨ P a)
    (l : List α) :
    ∀ fb, pixelOn (l.foldl f fb) px py = true
      ↔ pixelOn fb px py = true ∨ ∃ a ∈ l, P a := by
  induction l with
  | nil => intro fb; simp
  | cons a rest ih =>
    intro fb
    rw [List.foldl_cons, ih, h]
    constructor
    · rintro ((h1 | h1) | ⟨b, hb, hP⟩)
      · exact Or.inl h1
      · exact Or.inr ⟨a, List.mem_cons_self _ _, h1⟩
      · exact Or.inr ⟨b, List.mem_cons_of_mem _ hb, hP⟩
    · rintro (h1 | ⟨b, hb, hP⟩)
      · exact Or.inl (Or.inl h1)
      · rcases List.mem_cons.mp hb with rfl | hb
        · exact Or.inl (Or.inr hP)
        · exact Or.inr ⟨b, hb, hP⟩

/-- The glyph-bit test `col & (1<<ry)` reads bit `ry` of the column. -/
theorem and_shift_ne_zero (col ry : Nat) :
    ((col &&& (1 <<< ry)) != 0) = col.testBit ry := by
  rw [Nat.one_shiftLeft, Nat.and_two_pow]
  cases col.testBit ry
  · simp
  · simp only [Bool.toNat_true, Nat.one_mul]
    simp

/-- Pixels lit by one k-by-k block. -/
theorem drawBlock_lights (fb : Framebuffer) (x y cx ry k px py : Nat)
    (hpx : px < 128) (hpy : py < 64) :
    pixelOn (drawBlock fb x y cx ry k) px py = true
      ↔ pixelOn fb px py = true ∨
        ∃ dx dy, dx < k ∧ dy < k ∧
          (x + cx * k + dx) % 256 = px ∧ (y + ry * k + dy) % 256 = py := by
  unfold drawBlock
  rw [foldl_lights px py _
    (fun dx => ∃ dy, dy < k ∧ (x + cx * k + dx) % 256 = px ∧ (y + ry * k + dy) % 256 = py)]
  · constructor
    · rintro (h | ⟨dx, hdx, dy, hdy, h1, h2⟩)
      · exact Or.inl h
      · exact Or.inr ⟨dx, dy, List.mem_range.mp hdx, hdy, h1, h2⟩
    · rintro (h | ⟨dx, dy, hdx, hdy, h1, h2⟩)
      · exact Or.inl h
      · exact Or.inr ⟨dx, List.mem_range.mpr hdx, dy, hdy, h1, h2⟩
  · intro fb1 dx
    rw [foldl_lights px py _
      (fun dy => (x + cx * k + dx) % 256 = px ∧ (y + ry * k + dy) % 256 = py)]
    · constructor
      · rintro (h | ⟨dy, hdy, h1, h2⟩)
        · exact Or.inl h
        · exact Or.inr ⟨dy, List.mem_range.mp hdy, h1, h2⟩
      · rintro (h | ⟨dy, hdy, h1, h2⟩)
        · exact Or.inl h
        · exact Or.inr ⟨dy, List.mem_range.mpr hdy, h1, h2⟩
    · intro fb2 dy
      rw [pixelOn_oled_pixel _ _ _ _ _ _ hpx hpy]
      by_cases hc : (x + cx * k + dx) % 256 = px ∧ (y + ry * k + dy) % 256 = py
      · simp [hc]
      · simp [hc]

/-- Pixels lit by one glyph: the blocks of its set bits. -/
theorem drawGlyph_lights (fb : Framebuffer) (x y : Nat) (g : List Nat) (k px py : Nat)
    (hpx : px < 128) (hpy : py < 64) :
    pixelOn (drawGlyph fb x y g k) px py = true
      ↔ pixelOn fb px py = true ∨
        ∃ cx ry dx dy, cx < 5 ∧ ry < 7 ∧ dx < k ∧ dy < k ∧ (g.getD cx 0).testBit ry = true ∧
          (x + cx * k + dx) % 256 = px ∧ (y + ry * k + dy) % 256 = py := by
  unfold drawGlyph
  rw [foldl_lights px py _
    (fun cx => ∃ ry dx dy, ry < 7 ∧ dx < k ∧ dy < k ∧ (g.getD cx 0).testBit ry = true ∧
      (x + cx * k + dx) % 256 = px ∧ (y + ry * k + dy) % 256 = py)]
  · constructor
    · rintro (h | ⟨cx, hcx, ry, dx, dy, h⟩)
      · exact Or.inl h
      · exact Or.inr ⟨cx, ry, dx, dy, List.mem_range.mp hcx, h⟩
    · rintro (h | ⟨cx, ry, dx, dy, hcx, h⟩)
      · exact Or.inl h
      · exact Or.inr ⟨cx, List.mem_range.mpr hcx, ry, dx, dy, h⟩
  · intro fb1 cx
    simp only []
    rw [foldl_lights px py _
      (fun ry => ∃ dx dy, dx < k ∧ dy < k ∧ (g.getD cx 0).testBit ry = true ∧
        (x + cx * k + dx) % 256 = px ∧ (y + ry * k + dy) % 256 = py)]
    · constructor
      · rintro (h | ⟨ry, hry, dx, dy, h1, h2, h⟩)
        · exact Or.inl h
        · exact Or.inr ⟨ry, dx, dy, List.mem_range.mp hry, h1, h2, h⟩
      · rintro (h | ⟨ry, dx, dy, hry, h1, h2, h⟩)
        · exact Or.inl h
        · exact Or.inr ⟨ry, List.mem_range.mpr hry, dx, dy, h1, h2, h⟩
    · intro fb2 ry
      rw [and_shift_ne_zero]
      cases hb : (g.getD cx 0).testBit ry
      · simp
      · simp only [if_true]
        rw [drawBlock_lights fb2 x y cx ry k px py hpx hpy]
        constructor
        · rintro (h | ⟨dx, dy, h1, h2, h⟩)
          · exact Or.inl h
          · exact Or.inr ⟨dx, dy, h1, h2, trivial, h⟩
        · rintro (h | ⟨dx, dy, h1, h2, _, h⟩)
          · exact Or.inl h
          · exact Or.inr ⟨dx, dy, h1, h2, h⟩

/-! ## Text rendering -/

/-- The glyph of the first character is the one `findGlyph` returns. -/
theorem glyphBit_zero (ch : Char) (rest : List Char) (cx ry : Nat) :
    glyphBit (ch :: rest) 0 cx ry
      = match findGlyph ch FONT_5x7 with
        | none => false
        | some g => (g.getD cx 0).testBit ry := by
  simp [glyphBit]

/-- Later characters keep their glyphs when a character is put in front. -/
theorem glyphBit_succ (ch : Char) (rest : List Char) (j cx ry : Nat) :
    glyphBit (ch :: rest) (j + 1) cx ry = glyphBit rest j cx ry := by
  simp [glyphBit]

/-- A set glyph bit belongs to a character of the string. -/
theorem glyphBit_lt (s : List Char) (j cx ry : Nat) (h : glyphBit s j cx ry = true) :
    j < s.length := by
  by_contra hn
  have : s[j]? = none := List.getElem?_eq_none (by omega)
  simp [glyphBit, this] at h

/-- Advancing the 8-bit cursor by one character cell and then by `j` more is
advancing it by `j + 1` cells. -/
theorem cursor_shift (x k j c d : Nat) :
    ((x + 6 * k) % 256 + 6 * k * j + c + d) % 256 = (x + 6 * k * (j + 1) + c + d) % 256 := by
  have e : 6 * k * (j + 1) = 6 * k * j + 6 * k := by ring
  rw [e]
  generalize 6 * k * j = B
  omega

/-- The cursor after a string: every character, mapped or not, advances it by
`6*k` modulo 256. -/
theorem text_loop_cursor (y k : Nat) (s : List Char) :
    ∀ (fb : Framebuffer) (x : Nat), x < 256 →
      (text57_scaled_loop fb x y s k).2 = (x + 6 * k * s.length) % 256 := by
  induction s with
  | nil => intro fb x hx; simp [text57_scaled_loop, Nat.mod_eq_of_lt hx]
  | cons ch rest ih =>
    intro fb x hx
    have hx2 : (x + 6 * k) % 256 < 256 := Nat.mod_lt _ (by decide)
    have e : ((x + 6 * k) % 256 + 6 * k * rest.length) % 256
        = (x + 6 * k * (rest.length + 1)) % 256 := by
      have := cursor_shift x k rest.length 0 0
      simpa using this
    unfold text57_scaled_loop
    cases findGlyph ch FONT_5x7 with
    | none => simp only [ih fb _ hx2, List.length_cons, e]
    | some g => simp only [ih _ _ hx2, List.length_cons, e]

/-- An unmapped character only advances the cursor. -/
theorem text_loop_none (fb : Framebuffer) (x y k : Nat) (ch : Char) (rest : List Char)
    (h : findGlyph ch FONT_5x7 = none) :
    text57_scaled_loop fb x y (ch :: rest) k
      = text57_scaled_loop fb ((x + 6 * k) % 256) y rest k := by
  rw [text57_scaled_loop, h]

/-- A mapped character is drawn, then the cursor advances. -/
theorem text_loop_some (fb : Framebuffer) (x y k : Nat) (ch : Char) (rest : List Char)
    (g : List Nat) (h : findGlyph ch FONT_5x7 = some g) :
    text57_scaled_loop fb x y (ch :: rest) k
      = text57_scaled_loop (drawGlyph fb x y g k) ((x + 6 * k) % 256) y rest k := by
  rw [text57_scaled_loop, h]

/-- Drawing a concatenation is drawing the first part, then the second from
the framebuffer and cursor the first part left. -/
theorem text_loop_append (y k : Nat) (s1 s2 : List Char) :
    ∀ (fb : Framebuffer) (x : Nat),
      text57_scaled_loop fb x y (s1 ++ s2) k
        = text57_scaled_loop (text57_scaled_loop fb x y s1 k).1
            (text57_scaled_loop fb x y s1 k).2 y s2 k := by
  induction s1 with
  | nil => intro fb x; simp [text57_scaled_loop]
  | cons ch rest ih =>
    intro fb x
    simp only [List.cons_append]
    cases hg : findGlyph ch FONT_5x7 with
    | none => rw [text_loop_none _ _ _ _ _ (rest ++ s2) hg, text_loop_none _ _ _ _ _ rest hg, ih]
    | some g =>
      rw [text_loop_some _ _ _ _ _ (rest ++ s2) g hg, text_loop_some _ _ _ _ _ rest g hg, ih]

/-- Pixels lit by a string: the blocks of the set glyph bits of its mapped
characters, at coordinates reduced modulo 256. -/
theorem text_loop_lights (y k px py : Nat) (hpx : px < 128) (hpy : py < 64)
    (s : List Char) :
    ∀ (fb : Framebuffer) (x : Nat),
      pixelOn (text57_scaled_loop fb x y s k).1 px py = true
        ↔ pixelOn fb px py = true ∨
          ∃ j cx ry dx dy, cx < 5 ∧ ry < 7 ∧ dx < k ∧ dy < k ∧
            glyphBit s j cx ry = true ∧
            (x + 6 * k * j + cx * k + dx) % 256 = px ∧ (y + ry * k + dy) % 256 = py := by
  induction s with
  | nil =>
    intro fb x
    simp [text57_scaled_loop, glyphBit]
  | cons ch rest ih =>
    intro fb x
    unfold text57_scaled_loop
    cases hg : findGlyph ch FONT_5x7 with
    | none =>
      simp only []
      rw [ih]
      constructor
      · rintro (h | ⟨j, cx, ry, dx, dy, h1, h2, h3, h4, hb, hX, hY⟩)
        · exact Or.inl h
        · refine Or.inr ⟨j + 1, cx, ry, dx, dy, h1, h2, h3, h4, ?_, ?_, hY⟩
          · rw [glyphBit_succ]; exact hb
          · rw [← cursor_shift]; exact hX
      · rintro (h | ⟨j, cx, ry, dx, dy, h1, h2, h3, h4, hb, hX, hY⟩)
        · exact Or.inl h
        · cases j with
          | zero => rw [glyphBit_zero, hg] at hb; exact absurd hb (by simp)
          | succ j =>
            rw [glyphBit_succ] at hb
            rw [← cursor_shift] at hX
            exact Or.inr ⟨j, cx, ry, dx, dy, h1, h2, h3, h4, hb, hX, hY⟩
    | some g =>
      simp only []
      rw [ih, drawGlyph_lights fb x y g k px py hpx hpy]
      constructor
      · rintro ((h | ⟨cx, ry, dx, dy, h1, h2, h3, h4, hb, hX, hY⟩) |
          ⟨j, cx, ry, dx, dy, h1, h2, h3, h4, hb, hX, hY⟩)
        · exact Or.inl h
        · refine Or.inr ⟨0, cx, ry, dx, dy, h1, h2, h3, h4, ?_, ?_, hY⟩
          · rw [glyphBit_zero, hg]; exact hb
          · simpa using hX
        · refine Or.inr ⟨j + 1, cx, ry, dx, dy, h1, h2, h3, h4, ?_, ?_, hY⟩
          · rw [glyphBit_succ]; exact hb
          · rw [← cursor_shift]; exact hX
      · rintro (h | ⟨j, cx, ry, dx, dy, h1, h2, h3, h4, hb, hX, hY⟩)
        · exact Or.inl (Or.inl h)
        · cases j with
          | zero =>
            rw [glyphBit_zero, hg] at hb
            exact Or.inl (Or.inr ⟨cx, ry, dx, dy, h1, h2, h3, h4, hb, by simpa using hX, hY⟩)
          | succ j =>
            rw [glyphBit_succ] at hb
            rw [← cursor_shift] at hX
            exact Or.inr ⟨j, cx, ry, dx, dy, h1, h2, h3, h4, hb, hX, hY⟩

/-- C14: a character without an entry in `FONT_5x7` leaves the framebuffer as
it is and advances the 8-bit cursor by `6*k`, the same advance as a mapped
character; hence the text after any first part `s1` starts at the column
`x + 6*k*|s1|` (modulo 256), whichever of the characters of `s1` are mapped. -/
theorem C14_unmapped_char_advance (fb : Framebuffer) (x y k : Nat) (hx : x < 256)
    (ch : Char) (rest : List Char) :
    (findGlyph ch FONT_5x7 = none →
      text57_scaled fb x y [ch] k = fb ∧
      (text57_scaled_loop fb x y [ch] k).2 = (x + 6 * k) % 256 ∧
      text57_scaled_loop fb x y (ch :: rest) k
        = text57_scaled_loop fb ((x + 6 * k) % 256) y rest k) ∧
    (∀ g, findGlyph ch FONT_5x7 = some g →
      (text57_scaled_loop fb x y [ch] k).2 = (x + 6 * k) % 256 ∧
      text57_scaled_loop fb x y (ch :: rest) k
        = text57_scaled_loop (drawGlyph fb x y g k) ((x + 6 * k) % 256) y rest k) ∧
    (∀ s1 s2 : List Char,
      text57_scaled_loop fb x y (s1 ++ s2) k
        = text57_scaled_loop (text57_scaled fb x y s1 k)
            ((x + 6 * k * s1.length) % 256) y s2 k) := by
  refine ⟨fun h => ⟨?_, ?_, text_loop_none fb x y k ch rest h⟩,
    fun g h => ⟨?_, text_loop_some fb x y k ch rest g h⟩, fun s1 s2 => ?_⟩
  · rw [text57_scaled, text_loop_none fb x y k ch [] h]
    rfl
  · rw [text_loop_none fb x y k ch [] h]
    rfl
  · rw [text_loop_some fb x y k ch [] g h]
    rfl
  · rw [text_loop_append, text_loop_cursor y k s1 fb x hx]
    rfl

/-- C14, at the unmapped character `B` followed by `1`, scale 2, column 10. -/
theorem C14_unmapped_char_advance_witness :
    10 < 256 ∧ findGlyph 'B' FONT_5x7 = none ∧
    text57_scaled blankFB 10 0 ['B'] 2 = blankFB ∧
    text57_scaled_loop blankFB 10 0 ['B', '1'] 2 = text57_scaled_loop blankFB 22 0 ['1'] 2 :=
  ⟨by decide, by decide,
    ((C14_unmapped_char_advance blankFB 10 0 2 (by decide) 'B' ['1']).1 (by decide)).1,
    ((C14_unmapped_char_advance blankFB 10 0 2 (by decide) 'B' ['1']).1 (by decide)).2.2⟩

/-- Pixels lit by `text57_scaled`: the k-by-k blocks of the set glyph bits, at
the coordinates `((x + 6k*j + cx*k + dx) mod 256, (y + ry*k + dy) mod 256)`
that the 8-bit arguments of `oled_pixel` receive, when these lie on the screen.
When no coordinate reaches 256 (`x + 6k*|s| <= 256` and `y + 7k <= 256`) these
are the true coordinates. -/
theorem text57_scaled_lights (fb : Framebuffer) (x y : Nat) (s : List Char)
    (k px py : Nat) (hpx : px < 128) (hpy : py < 64) :
    (pixelOn (text57_scaled fb x y s k) px py = true
      ↔ pixelOn fb px py = true ∨
        ∃ j cx ry dx dy, j < s.length ∧ cx < 5 ∧ ry < 7 ∧ dx < k ∧ dy < k ∧
          glyphBit s j cx ry = true ∧
          (x + 6 * k * j + cx * k + dx) % 256 = px ∧ (y + ry * k + dy) % 256 = py) ∧
    (x + 6 * k * s.length ≤ 256 → y + 7 * k ≤ 256 →
      (pixelOn (text57_scaled fb x y s k) px py = true
        ↔ pixelOn fb px py = true ∨
          ∃ j cx ry dx dy, j < s.length ∧ cx < 5 ∧ ry < 7 ∧ dx < k ∧ dy < k ∧
            glyphBit s j cx ry = true ∧
            x + 6 * k * j + cx * k + dx = px ∧ y + ry * k + dy = py)) := by
  have main := text_loop_lights y k px py hpx hpy s fb x
  have wrapped : pixelOn (text57_scaled fb x y s k) px py = true
      ↔ pixelOn fb px py = true ∨
        ∃ j cx ry dx dy, j < s.length ∧ cx < 5 ∧ ry < 7 ∧ dx < k ∧ dy < k ∧
          glyphBit s j cx ry = true ∧
          (x + 6 * k * j + cx * k + dx) % 256 = px ∧ (y + ry * k + dy) % 256 = py := by
    rw [text57_scaled, main]
    constructor
    · rintro (h | ⟨j, cx, ry, dx, dy, h1, h2, h3, h4, hb, hX, hY⟩)
      · exact Or.inl h
      · exact Or.inr ⟨j, cx, ry, dx, dy, glyphBit_lt s j cx ry hb, h1, h2, h3, h4, hb, hX, hY⟩
    · rintro (h | ⟨j, cx, ry, dx, dy, _, h1, h2, h3, h4, hb, hX, hY⟩)
      · exact Or.inl h
      · exact Or.inr ⟨j, cx, ry, dx, dy, h1, h2, h3, h4, hb, hX, hY⟩
  refine ⟨wrapped, fun hxs hys => ?_⟩
  have bound : ∀ j cx ry dx dy, j < s.length → cx < 5 → ry < 7 → dx < k → dy < k →
      x + 6 * k * j + cx * k + dx < 256 ∧ y + ry * k + dy < 256 := by
    intro j cx ry dx dy hj hcx hry hdx hdy
    have a1 : 6 * k * (j + 1) ≤ 6 * k * s.length := Nat.mul_le_mul_left _ hj
    have a2 : 6 * k * (j + 1) = 6 * k * j + 6 * k := by ring
    have a3 : cx * k ≤ 4 * k := Nat.mul_le_mul_right _ (by omega)
    have a4 : ry * k ≤ 6 * k := Nat.mul_le_mul_right _ (by omega)
    generalize 6 * k * j = A at *
    generalize 6 * k * (j + 1) = A1 at *
    generalize 6 * k * s.length = L at *
    generalize cx * k = C at *
    generalize ry * k = R at *
    omega
  rw [wrapped]
  constructor
  · rintro (h | ⟨j, cx, ry, dx, dy, hj, h1, h2, h3, h4, hb, hX, hY⟩)
    · exact Or.inl h
    · obtain ⟨b1, b2⟩ := bound j cx ry dx dy hj h1 h2 h3 h4
      rw [Nat.mod_eq_of_lt b1] at hX
      rw [Nat.mod_eq_of_lt b2] at hY
      exact Or.inr ⟨j, cx, ry, dx, dy, hj, h1, h2, h3, h4, hb, hX, hY⟩
  · rintro (h | ⟨j, cx, ry, dx, dy, hj, h1, h2, h3, h4, hb, hX, hY⟩)
    · exact Or.inl h
    · obtain ⟨b1, b2⟩ := bound j cx ry dx dy hj h1 h2 h3 h4
      refine Or.inr ⟨j, cx, ry, dx, dy, hj, h1, h2, h3, h4, hb, ?_, ?_⟩
      · rw [Nat.mod_eq_of_lt b1]; exact hX
      · rw [Nat.mod_eq_of_lt b2]; exact hY

/-- C17: a glyph pixel whose true column is 128..255 is dropped by the guard of
`oled_pixel`, but one whose true column is 256 or more is not: its coordinate
is narrowed to 8 bits first and lands on the screen.  The digit `1` has bit 1
of column 1 set.  Drawn at (127, 0) with scale 1 on a blank framebuffer that
bit has the true column 128 and nothing is lit; drawn at (255, 0) it has the
true column 256 and lights the pixel (0, 1), which is the true coordinate of no
glyph bit, so the text does not light exactly the on-screen true coordinates. -/
theorem C17_text_wraps_at_256 :
    glyphBit ['1'] 0 1 1 = true ∧
    (∀ px py : Nat, px < 128 → py < 64 →
      pixelOn (text57_scaled blankFB 127 0 ['1'] 1) px py = false) ∧
    pixelOn blankFB 0 1 = false ∧
    pixelOn (text57_scaled blankFB 255 0 ['1'] 1) 0 1 = true ∧
    ¬ (∀ px py : Nat, px < 128 → py < 64 →
        (pixelOn (text57_scaled blankFB 255 0 ['1'] 1) px py = true
          ↔ pixelOn blankFB px py = true ∨
            ∃ j cx ry dx dy, j < ['1'].length ∧ cx < 5 ∧ ry < 7 ∧ dx < 1 ∧ dy < 1 ∧
              glyphBit ['1'] j cx ry = true ∧
              255 + 6 * 1 * j + cx * 1 + dx = px ∧ 0 + ry * 1 + dy = py)) := by
  have lit : pixelOn (text57_scaled blankFB 255 0 ['1'] 1) 0 1 = true := by decide!
  have blank : ∀ px py : Nat, pixelOn blankFB px py = false := by
    intro px py
    unfold pixelOn blankFB
    split <;> simp
  refine ⟨by decide, ?_, blank 0 1, lit, ?_⟩
  · intro px py hpx hpy
    cases hlit : pixelOn (text57_scaled blankFB 127 0 ['1'] 1) px py with
    | false => rfl
    | true =>
      rcases (text57_scaled_lights blankFB 127 0 ['1'] 1 px py hpx hpy).1.mp hlit with
        h0 | ⟨j, cx, ry, dx, dy, hj, hcx, hry, hdx, hdy, hb, hX, _⟩
      · rw [blank px py] at h0
        exact absurd h0 (by decide)
      · have hj0 : j = 0 := by simpa using hj
        have hcx0 : cx = 0 := by subst hj0; omega
        subst hj0
        subst hcx0
        exfalso
        interval_cases ry <;> exact absurd hb (by decide)
  · intro h
    rcases (h 0 1 (by decide) (by decide)).mp lit with
      h0 | ⟨j, cx, ry, dx, dy, _, _, _, _, _, _, hX, _⟩
    · rw [blank 0 1] at h0
      exact absurd h0 (by decide)
    · omega

/-! ## Line primitives -/

/-- The `oled_hline` loop with its endpoint below 255 exits after drawing the
columns `x .. x1`, given fuel for its loop tests. -/
theorem oled_hline_loop_total (x1 y : Nat) (isOn : Bool) (h1 : x1 < 255) (d : Nat) :
    ∀ (fuel : Nat) (fb : Framebuffer) (x : Nat), x + d = x1 + 1 → d + 1 ≤ fuel →
      oled_hline_loop fuel fb x x1 y isOn
        = some ((List.range' x d).foldl (fun fb a => oled_pixel fb a y isOn) fb) := by
  induction d with
  | zero =>
    intro fuel fb x hx hf
    obtain ⟨n, rfl⟩ : ∃ n, fuel = n + 1 := ⟨fuel - 1, by omega⟩
    have : ¬ x ≤ x1 := by omega
    simp [oled_hline_loop, this]
  | succ d ih =>
    intro fuel fb x hx hf
    obtain ⟨n, rfl⟩ : ∃ n, fuel = n + 1 := ⟨fuel - 1, by omega⟩
    have hle : x ≤ x1 := by omega
    have hw : (x + 1) % 256 = x + 1 := Nat.mod_eq_of_lt (by omega)
    rw [oled_hline_loop, if_pos hle, hw, ih n _ (x + 1) (by omega) (by omega)]
    rfl

/-- The `oled_vline` loop with its endpoint below 255 exits after drawing the
rows `y .. y1`, given fuel for its loop tests. -/
theorem oled_vline_loop_total (x y1 : Nat) (isOn : Bool) (h1 : y1 < 255) (d : Nat) :
    ∀ (fuel : Nat) (fb : Framebuffer) (y : Nat), y + d = y1 + 1 → d + 1 ≤ fuel →
      oled_vline_loop fuel fb x y y1 isOn
        = some ((List.range' y d).foldl (fun fb a => oled_pixel fb x a isOn) fb) := by
  induction d with
  | zero =>
    intro fuel fb y hy hf
    obtain ⟨n, rfl⟩ : ∃ n, fuel = n + 1 := ⟨fuel - 1, by omega⟩
    have : ¬ y ≤ y1 := by omega
    simp [oled_vline_loop, this]
  | succ d ih =>
    intro fuel fb y hy hf
    obtain ⟨n, rfl⟩ : ∃ n, fuel = n + 1 := ⟨fuel - 1, by omega⟩
    have hle : y ≤ y1 := by omega
    have hw : (y + 1) % 256 = y + 1 := Nat.mod_eq_of_lt (by omega)
    rw [oled_vline_loop, if_pos hle, hw, ih n _ (y + 1) (by omega) (by omega)]
    rfl

/-- With endpoints below 255 and fuel 256 or more, `oled_hline` returns the
framebuffer with the columns from the smaller to the larger endpoint drawn. -/
theorem oled_hline_total (fuel : Nat) (fb : Framebuffer) (x0 x1 y : Nat) (isOn : Bool)
    (h0 : x0 < 255) (h1 : x1 < 255) (hf : 256 ≤ fuel) :
    oled_hline fuel fb x0 x1 y isOn
      = some ((List.range' (min x0 x1) (max x0 x1 + 1 - min x0 x1)).foldl
          (fun fb a => oled_pixel fb a y isOn) fb) := by
  unfold oled_hline
  by_cases h : x1 < x0
  · rw [if_pos h, Nat.min_eq_right (Nat.le_of_lt h), Nat.max_eq_left (Nat.le_of_lt h)]
    exact oled_hline_loop_total x0 y isOn h0 _ fuel fb x1 (by omega) (by omega)
  · rw [if_neg h, Nat.min_eq_left (Nat.le_of_not_lt h), Nat.max_eq_right (Nat.le_of_not_lt h)]
    exact oled_hline_loop_total x1 y isOn h1 _ fuel fb x0 (by omega) (by omega)

/-- With endpoints below 255 and fuel 256 or more, `oled_vline` returns the
framebuffer with the rows from the smaller to the larger endpoint drawn. -/
theorem oled_vline_total (fuel : Nat) (fb : Framebuffer) (x y0 y1 : Nat) (isOn : Bool)
    (h0 : y0 < 255) (h1 : y1 < 255) (hf : 256 ≤ fuel) :
    oled_vline fuel fb x y0 y1 isOn
      = some ((List.range' (min y0 y1) (max y0 y1 + 1 - min y0 y1)).foldl
          (fun fb a => oled_pixel fb x a isOn) fb) := by
  unfold oled_vline
  by_cases h : y1 < y0
  · rw [if_pos h, Nat.min_eq_right (Nat.le_of_lt h), Nat.max_eq_left (Nat.le_of_lt h)]
    exact oled_vline_loop_total x y0 isOn h0 _ fuel fb y1 (by omega) (by omega)
  · rw [if_neg h, Nat.min_eq_left (Nat.le_of_not_lt h), Nat.max_eq_right (Nat.le_of_not_lt h)]
    exact oled_vline_loop_total x y1 isOn h1 _ fuel fb y0 (by omega) (by omega)

/-- A left fold of drawing steps that each give a pixel the value `v` when `P`
holds of the step, and leave it alone otherwise, gives it the value `v` when
`P` holds of some step and leaves it alone otherwise. -/
theorem foldl_sets {α : Type} (px py : Nat) (f : Framebuffer → α → Framebuffer)
    (v : Bool) (P : α → Prop)
    (h : ∀ fb a, (P a → pixelOn (f fb a) px py = v) ∧
      (¬ P a → pixelOn (f fb a) px py = pixelOn fb px py))
    (l : List α) :
    ∀ fb, ((∃ a ∈ l, P a) → pixelOn (l.foldl f fb) px py = v) ∧
      ((¬ ∃ a ∈ l, P a) → pixelOn (l.foldl f fb) px py = pixelOn fb px py) := by
  induction l with
  | nil => intro fb; simp
  | cons a rest ih =>
    intro fb
    rw [List.foldl_cons]
    obtain ⟨ih1, ih2⟩ := ih (f fb a)
    by_cases hr : ∃ b ∈ rest, P b
    · refine ⟨fun _ => ih1 hr, fun hn => ?_⟩
      obtain ⟨b, hb, hP⟩ := hr
      exact absurd ⟨b, List.mem_cons_of_mem _ hb, hP⟩ hn
    · rw [ih2 hr]
      constructor
      · rintro ⟨b, hb, hP⟩
        rcases List.mem_cons.mp hb with rfl | hb
        · exact (h fb b).1 hP
        · exact absurd ⟨b, hb, hP⟩ hr
      · intro hn
        exact (h fb a).2 (fun hP => hn ⟨a, List.mem_cons_self _ _, hP⟩)

/-- C18: with endpoints below 255 (and fuel for the at most 256 loop tests),
`oled_hline` returns the same framebuffer for `(x0, x1)` and `(x1, x0)`, in
which exactly the screen pixels `(px, y)` with `min <= px <= max` have the
value `on` and every other pixel keeps its value; likewise `oled_vline` for
the rows between its endpoints in column `x`. -/
theorem C18_lines_auto_order (fb : Framebuffer) (a0 a1 c : Nat) (isOn : Bool)
    (h0 : a0 < 255) (h1 : a1 < 255) :
    (∃ fb2 : Framebuffer,
      (∀ fuel, 256 ≤ fuel →
        oled_hline fuel fb a0 a1 c isOn = some fb2 ∧
        oled_hline fuel fb a1 a0 c isOn = some fb2) ∧
      (∀ px py, px < 128 → py < 64 →
        pixelOn fb2 px py
          = if py = c ∧ min a0 a1 ≤ px ∧ px ≤ max a0 a1 then isOn else pixelOn fb px py)) ∧
    (∃ fb2 : Framebuffer,
      (∀ fuel, 256 ≤ fuel →
        oled_vline fuel fb c a0 a1 isOn = some fb2 ∧
        oled_vline fuel fb c a1 a0 isOn = some fb2) ∧
      (∀ px py, px < 128 → py < 64 →
        pixelOn fb2 px py
          = if px = c ∧ min a0 a1 ≤ py ∧ py ≤ max a0 a1 then isOn else pixelOn fb px py)) := by
  constructor
  · refine ⟨_, fun fuel hf => ⟨oled_hline_total fuel fb a0 a1 c isOn h0 h1 hf, ?_⟩, ?_⟩
    · rw [oled_hline_total fuel fb a1 a0 c isOn h1 h0 hf, Nat.min_comm, Nat.max_comm]
    · intro px py hpx hpy
      obtain ⟨s1, s2⟩ := foldl_sets px py (fun fb a => oled_pixel fb a c isOn) isOn
        (fun a => a = px ∧ c = py)
        (fun fb a => by
          rw [pixelOn_oled_pixel _ _ _ _ _ _ hpx hpy]
          exact ⟨fun hP => by rw [if_pos hP], fun hP => by rw [if_neg hP]⟩)
        (List.range' (min a0 a1) (max a0 a1 + 1 - min a0 a1)) fb
      by_cases hc : py = c ∧ min a0 a1 ≤ px ∧ px ≤ max a0 a1
      · rw [if_pos hc]
        exact s1 ⟨px, List.mem_range'_1.mpr (by omega), rfl, hc.1.symm⟩
      · rw [if_neg hc]
        refine s2 ?_
        rintro ⟨a, ha, rfl, hy⟩
        have := List.mem_range'_1.mp ha
        exact hc ⟨hy.symm, by omega, by omega⟩
  · refine ⟨_, fun fuel hf => ⟨oled_vline_total fuel fb c a0 a1 isOn h0 h1 hf, ?_⟩, ?_⟩
    · rw [oled_vline_total fuel fb c a1 a0 isOn h1 h0 hf, Nat.min_comm, Nat.max_comm]
    · intro px py hpx hpy
      obtain ⟨s1, s2⟩ := foldl_sets px py (fun fb a => oled_pixel fb c a isOn) isOn
        (fun a => c = px ∧ a = py)
        (fun fb a => by
          rw [pixelOn_oled_pixel _ _ _ _ _ _ hpx hpy]
          exact ⟨fun hP => by rw [if_pos hP], fun hP => by rw [if_neg hP]⟩)
        (List.range' (min a0 a1) (max a0 a1 + 1 - min a0 a1)) fb
      by_cases hc : px = c ∧ min a0 a1 ≤ py ∧ py ≤ max a0 a1
      · rw [if_pos hc]
        exact s1 ⟨py, List.mem_range'_1.mpr (by omega), hc.1.symm, rfl⟩
      · rw [if_neg hc]
        refine s2 ?_
        rintro ⟨a, ha, hx, rfl⟩
        have := List.mem_range'_1.mp ha
        exact hc ⟨hx.symm, by omega, by omega⟩

/-- C18, at an input leg of the diagram given with its endpoints reversed. -/
theorem C18_lines_auto_order_witness :
    (27 < 255 ∧ 14 < 255) ∧
    ∃ fb2 : Framebuffer, oled_hline 256 blankFB 27 14 26 true = some fb2 ∧
      oled_hline 256 blankFB 14 27 26 true = some fb2 := by
  obtain ⟨fb2, h, _⟩ := (C18_lines_auto_order blankFB 27 14 26 true (by decide) (by decide)).1
  exact ⟨⟨by decide, by decide⟩, fb2, h 256 (le_refl 256)⟩

/-! ## Diagram renderer -/

/-- The 14 values of the loop counter of the curved end of the gate body. -/
theorem range_14 : List.range 14 = [0, 1, 2, 3, 4, 5, 6, 7, 8, 9, 10, 11, 12, 13] := by
  decide

/-- With fuel 256 or more, `renderOLED` does not depend on the fuel or on the
framebuffer it starts from. -/
theorem renderOLED_fuel (fuel : Nat) (hf : 256 ≤ fuel) (fb : Framebuffer) (gf : Nat)
    (in1 in2 in3 in4 Y Yb : Bool) :
    renderOLED fuel fb gf in1 in2 in3 in4 Y Yb
      = renderOLED 256 blankFB gf in1 in2 in3 in4 Y Yb := by
  have h256 : (256 : Nat) ≤ 256 := le_refl _
  have hc : ∀ f : Framebuffer, oled_clear f = blankFB := fun _ => rfl
  simp (disch := omega) only [renderOLED, drawDGateBody, range_14, List.foldlM_cons,
    List.foldlM_nil, Option.bind_eq_bind, Option.pure_def, Option.some_bind,
    oled_hline_total, oled_vline_total, hc]

/-- With fuel 256, `renderOLED` returns a frame. -/
theorem renderOLED_isSome (gf : Nat) (in1 in2 in3 in4 Y Yb : Bool) :
    (renderOLED 256 blankFB gf in1 in2 in3 in4 Y Yb).isSome = true := by
  have h256 : (256 : Nat) ≤ 256 := le_refl _
  simp (disch := omega) only [renderOLED, drawDGateBody, range_14, List.foldlM_cons,
    List.foldlM_nil, Option.bind_eq_bind, Option.pure_def, Option.some_bind,
    oled_hline_total, oled_vline_total]
  split <;> rfl

/-- C15: for every argument tuple `renderOLED` returns a frame (given fuel for
its line loops), and that frame is the same whatever the framebuffer held
before the call, so replaying a call gives an identical buffer. -/
theorem C15_render_stateless (gf : Nat) (in1 in2 in3 in4 Y Yb : Bool) :
    ∃ frame : Framebuffer, ∀ fuel, 256 ≤ fuel → ∀ fb : Framebuffer,
      renderOLED fuel fb gf in1 in2 in3 in4 Y Yb = some frame := by
  obtain ⟨frame, hframe⟩ :=
    Option.isSome_iff_exists.mp (renderOLED_isSome gf in1 in2 in3 in4 Y Yb)
  exact ⟨frame, fun fuel hf fb =>
    (renderOLED_fuel fuel hf fb gf in1 in2 in3 in4 Y Yb).trans hframe⟩

/-- C15, for the AND/NAND diagram with all inputs low: the frame drawn over a
blank framebuffer and the one drawn over a framebuffer with a lit pixel are
the same. -/
theorem C15_render_stateless_witness :
    (256 ≤ 256 ∧ 256 ≤ 300) ∧
    ∃ frame : Framebuffer,
      renderOLED 256 blankFB GF_ANDNAND false false false false false true = some frame ∧
      renderOLED 300 (oled_pixel blankFB 0 0 true) GF_ANDNAND false false false false false true
        = some frame := by
  obtain ⟨frame, h⟩ := C15_render_stateless GF_ANDNAND false false false false false true
  exact ⟨⟨by decide, by decide⟩, frame, h 256 (by decide) blankFB,
    h 300 (by decide) (oled_pixel blankFB 0 0 true)⟩

/-- C19: with a display and the family DUAL_NOT, raising row 1 alone leaves
`Y = NOT row 2` and `Yb = NOT row 3` as they are but changes the rendered
frame: the digit beside the input leg aligned with Y1, at (11, 23), is `0`
when row 1 is low and `1` when it is high (pixel (11, 24) belongs to `0`
only), while row 2, which Y1 inverts, is low in both frames. -/
theorem C19_dual_not_frame_shows_row1 :
    (loop (displaySession GF_DUALNOT) (rowsCycle true false false)).2.in2 = false ∧
    (loop (displaySession GF_DUALNOT) (rowsCycle false false false)).2.in2 = false ∧
    (loop (displaySession GF_DUALNOT) (rowsCycle true false false)).2.Y
      = (loop (displaySession GF_DUALNOT) (rowsCycle false false false)).2.Y ∧
    (loop (displaySession GF_DUALNOT) (rowsCycle true false false)).2.Yb
      = (loop (displaySession GF_DUALNOT) (rowsCycle false false false)).2.Yb ∧
    (loopRender 256 blankFB (displaySession GF_DUALNOT) (rowsCycle false false false)).map
      (fun fb => pixelOn fb 11 24) = some true ∧
    (loopRender 256 blankFB (displaySession GF_DUALNOT) (rowsCycle true false false)).map
      (fun fb => pixelOn fb 11 24) = some false := by
  refine ⟨by decide, by decide, by decide, by decide, ?_, ?_⟩
  · decide!
  · decide!

/-! ## Font table -/

/-- C21: the label `Y2`, which `renderOLED` draws under DUAL_NOT, contains the
character `2`, which has no entry in `FONT_5x7`, so the label is drawn exactly
as `Y` would be; every character of all the other strings that `renderOLED`
and `drawBit` draw has an entry. -/
theorem C21_label_Y2_unmapped :
    "Y2".toList = ['Y', '2'] ∧
    findGlyph '2' FONT_5x7 = none ∧
    (∀ (fb : Framebuffer) (x y k : Nat),
      text57_scaled fb x y "Y2".toList k = text57_scaled fb x y "Y".toList k) ∧
    (∀ s ∈ ["AND ", "NAND", "OR  ", "NOR ", "XOR ", "XNOR", "MAJ ", "MIN ", "NOT ", "    ",
        "Y", "/Y", "Y1", "0", "1"],
      ∀ ch ∈ s.toList, (findGlyph ch FONT_5x7).isSome = true) ∧
    (∀ gf : Nat,
      (gateLabels gf).1 ∈ ["AND ", "OR  ", "XOR ", "MAJ ", "NOT ", "    "] ∧
      (gateLabels gf).2 ∈ ["NAND", "NOR ", "XNOR", "MIN ", "NOT ", "    "]) := by
  refine ⟨by decide, by decide, ?_, by decide, ?_⟩
  · intro fb x y k
    have hY : findGlyph 'Y' FONT_5x7 = some [0x00, 0x42, 0x7F, 0x40, 0x00] := by decide
    have h2 : findGlyph '2' FONT_5x7 = none := by decide
    show text57_scaled fb x y ['Y', '2'] k = text57_scaled fb x y ['Y'] k
    simp only [text57_scaled]
    rw [text_loop_some fb x y k 'Y' ['2'] _ hY, text_loop_none _ _ y k '2' [] h2,
      text_loop_some fb x y k 'Y' [] _ hY]
    rfl
  · intro gf
    rcases gf with _ | _ | _ | _ | _ | n <;> simp [gateLabels]

/-- C22: no character has two entries in `FONT_5x7`, but the entries of the
distinct characters `1` and `Y` hold the same five column bytes, so `Y` is
drawn exactly as `1`; these two are the only entries with equal columns. -/
theorem C22_glyph_Y_equals_1 :
    (FONT_5x7.map fun e => e.c).Nodup ∧
    '1' ≠ 'Y' ∧
    findGlyph '1' FONT_5x7 = some [0x00, 0x42, 0x7F, 0x40, 0x00] ∧
    findGlyph 'Y' FONT_5x7 = some [0x00, 0x42, 0x7F, 0x40, 0x00] ∧
    (∀ (fb : Framebuffer) (x y k : Nat),
      text57_scaled fb x y ['Y'] k = text57_scaled fb x y ['1'] k) ∧
    (∀ e1 ∈ FONT_5x7, ∀ e2 ∈ FONT_5x7, e1.col = e2.col →
      e1.c = e2.c ∨ (e1.c = '1' ∧ e2.c = 'Y') ∨ (e1.c = 'Y' ∧ e2.c = '1')) := by
  have hY : findGlyph 'Y' FONT_5x7 = some [0x00, 0x42, 0x7F, 0x40, 0x00] := by decide
  have h1 : findGlyph '1' FONT_5x7 = some [0x00, 0x42, 0x7F, 0x40, 0x00] := by decide
  refine ⟨by decide, by decide, h1, hY, ?_, by decide⟩
  intro fb x y k
  simp only [text57_scaled]
  rw [text_loop_some fb x y k 'Y' [] _ hY, text_loop_some fb x y k '1' [] _ h1]

/-! ## Termination of the line loops -/

/-- With the endpoint 255 the `oled_hline` loop test `x<=x1` holds for every
8-bit counter value, so the loop uses up any fuel. -/
theorem oled_hline_loop_255 (y : Nat) (isOn : Bool) (fuel : Nat) :
    ∀ (fb : Framebuffer) (x : Nat), x < 256 →
      oled_hline_loop fuel fb x 255 y isOn = none := by
  induction fuel with
  | zero => intro fb x _; rfl
  | succ n ih =>
    intro fb x hx
    have hle : x ≤ 255 := by omega
    rw [oled_hline_loop, if_pos hle]
    exact ih _ _ (Nat.mod_lt _ (by decide))

/-- With the endpoint 255 the `oled_vline` loop uses up any fuel. -/
theorem oled_vline_loop_255 (x : Nat) (isOn : Bool) (fuel : Nat) :
    ∀ (fb : Framebuffer) (y : Nat), y < 256 →
      oled_vline_loop fuel fb x y 255 isOn = none := by
  induction fuel with
  | zero => intro fb y _; rfl
  | succ n ih =>
    intro fb y hy
    have hle : y ≤ 255 := by omega
    rw [oled_vline_loop, if_pos hle]
    exact ih _ _ (Nat.mod_lt _ (by decide))

/-- C23: when one endpoint is 255, `oled_hline` and `oled_vline` do not
terminate, whatever the other 8-bit endpoint `a mod 256` and in either
argument order: for every amount of fuel the loop is still running when the
fuel is used up. -/
theorem C23_lines_endpoint_255_diverge (fb : Framebuffer) (a c : Nat) (isOn : Bool)
    (fuel : Nat) :
    oled_hline fuel fb (a % 256) 255 c isOn = none ∧
    oled_hline fuel fb 255 (a % 256) c isOn = none ∧
    oled_vline fuel fb c (a % 256) 255 isOn = none ∧
    oled_vline fuel fb c 255 (a % 256) isOn = none := by
  have ha : a % 256 < 256 := Nat.mod_lt _ (by decide)
  have n1 : ¬ 255 < a % 256 := by omega
  refine ⟨?_, ?_, ?_, ?_⟩
  · rw [oled_hline, if_neg n1]
    exact oled_hline_loop_255 c isOn fuel fb _ ha
  · rw [oled_hline]
    by_cases h : a % 256 < 255
    · rw [if_pos h]; exact oled_hline_loop_255 c isOn fuel fb _ ha
    · rw [if_neg h]
      have e : a % 256 = 255 := by omega
      rw [e]; exact oled_hline_loop_255 c isOn fuel fb _ (by decide)
  · rw [oled_vline, if_neg n1]
    exact oled_vline_loop_255 c isOn fuel fb _ ha
  · rw [oled_vline]
    by_cases h : a % 256 < 255
    · rw [if_pos h]; exact oled_vline_loop_255 c isOn fuel fb _ ha
    · rw [if_neg h]
      have e : a % 256 = 255 := by omega
      rw [e]; exact oled_vline_loop_255 c isOn fuel fb _ (by decide)

/-! ## Shipping preset -/

/-- The sampler of the preset is the sampler of the universal firmware. -/
theorem AndNand_rowOR_arr_eq (pins : List Samples) :
    AndNand.rowOR_arr pins = rowOR_arr pins := by
  induction pins with
  | nil => rfl
  | cons p rest ih =>
    have hp : AndNand.readStable p = readStable p := rfl
    simp only [AndNand.rowOR_arr, rowOR_arr, hp, ih]

/-- C24: for all four row values the `(andOut, nandOut)` of `AND-NAND.cpp`
equals the `(Y, Yb)` of the universal firmware without a display and with the
family AND_NAND; and for all pin samples one pass of the preset's `loop()`
drives the same row values and bus values as one pass of the universal
`loop()` in that mode. -/
theorem C24_preset_refines_universal (in1 in2 in3 in4 : Bool) :
    AndNand.evalOutputs in1 in2 in3 in4 = evalLogic false GF_ANDNAND in1 in2 in3 in4 ∧
    (∀ (s : State) (inp : CycleInput),
      (AndNand.loop inp).andOut
        = (loop { s with g_hasOLED := false, g_gateFamily := GF_ANDNAND } inp).2.Y ∧
      (AndNand.loop inp).nandOut
        = (loop { s with g_hasOLED := false, g_gateFamily := GF_ANDNAND } inp).2.Yb ∧
      (AndNand.loop inp).in1
        = (loop { s with g_hasOLED := false, g_gateFamily := GF_ANDNAND } inp).2.in1 ∧
      (AndNand.loop inp).in2
        = (loop { s with g_hasOLED := false, g_gateFamily := GF_ANDNAND } inp).2.in2 ∧
      (AndNand.loop inp).in3
        = (loop { s with g_hasOLED := false, g_gateFamily := GF_ANDNAND } inp).2.in3 ∧
      (AndNand.loop inp).in4
        = (loop { s with g_hasOLED := false, g_gateFamily := GF_ANDNAND } inp).2.in4) := by
  have rows : ∀ a b c d : Bool,
      AndNand.evalOutputs a b c d = evalLogic false GF_ANDNAND a b c d := by
    intro a b c d
    cases a <;> cases b <;> cases c <;> cases d <;> decide
  refine ⟨rows in1 in2 in3 in4, fun s inp => ?_⟩
  have e := rows (rowOR_arr inp.row1) (rowOR_arr inp.row2) (rowOR_arr inp.row3)
    (rowOR_arr inp.row4)
  simp only [AndNand.loop, AndNand_rowOR_arr_eq, loop, modeButton, Bool.not_false, if_true,
    Bool.false_eq_true, if_false, e, and_self]

end LogicGates
